import Mathlib

/-!
# Verification of the Graf MLS/ABAC graph query engine

Shallow embedding of the TypeScript sources of the Graf repository
(`src/lib/policy.ts`, `src/lib/dataStore.ts`, `src/lib/queryEngine.ts`
and collaborators) into Lean 4, together with theorems settling the
specification claims about the policy evaluator, the query pipeline,
the budget accounting, the graph-view reconciler and the level
export/import round trip.

Modelling conventions:
* JavaScript attribute maps (`Record<string, any>`) are association
  lists from keys to `AttrVal`; the value universe covers the kinds of
  values occurring in the repository's data: strings, numbers, string
  lists and number lists.  JavaScript numbers are modelled as exact
  rationals (`Rat`).
* JS truthiness, strict equality (`===`, with distinct array objects
  never identical), string coercion and number coercion are modelled
  explicitly.
* Timestamps are milliseconds since the Unix epoch (`Int`); ISO-8601
  strings are parsed/rendered by explicit executable functions.
* Sources of environment dependence (the floating-point haversine
  distance, `Date.toLocaleTimeString`, and the `Math.random` suffixes
  of generated ids) are threaded through an explicit `Env` parameter;
  no claim depends on their values.
-/

/-! ## JavaScript value model -/

/-- A JavaScript attribute value, restricted to the kinds of values the
repository stores in attribute maps: strings, numbers, string arrays and
number arrays. -/
inductive AttrVal where
  | aStr (s : String)
  | aNum (q : Rat)
  | aStrList (xs : List String)
  | aNumList (xs : List Rat)
deriving DecidableEq, Repr

/-- An attribute map (`Record<string, any>` in the source), as an
association list; keys are unique in all data the program builds. -/
abbrev Attrs := List (String × AttrVal)

/-- Property access `attrs?.[key]`: first binding of the key, if any. -/
def getAttr (attrs : Attrs) (key : String) : Option AttrVal :=
  (attrs.find? (fun p => p.1 = key)).map (·.2)

/-- JS truthiness of an attribute value: empty strings and zero are
falsy, arrays are always truthy. -/
def truthyVal : AttrVal → Bool
  | .aStr s => !s.isEmpty
  | .aNum q => q ≠ 0
  | .aStrList _ => true
  | .aNumList _ => true

/-- JS truthiness of a possibly-absent value (`undefined` is falsy). -/
def truthy : Option AttrVal → Bool
  | none => false
  | some v => truthyVal v

/-- JS `||`: the left operand if truthy, otherwise the right one. -/
def jsOr (a b : Option AttrVal) : Option AttrVal :=
  if truthy a then a else b

/-- JS strict equality `===` between attribute values.  Strings and
numbers compare by value; arrays compare by object identity, and the
program only ever compares values drawn from distinct cloned objects,
so array comparisons are `false`. -/
def jsStrictEq : AttrVal → AttrVal → Bool
  | .aStr a, .aStr b => a = b
  | .aNum a, .aNum b => a = b
  | _, _ => false

/-! ## Data model (`src/lib/types.ts`) -/

/-- `User` from `types.ts`.  `clearance_level` is kept as a string (the
policy code treats unknown levels as rank 0). -/
structure User where
  id : String
  username : String
  clearance_level : String
  attributes : Attrs
  query_budget : Int
  budget_reset_at : String
deriving DecidableEq, Repr

/-- `GraphNode` from `types.ts`. -/
structure GraphNode where
  id : String
  logical_id : String
  classification_level : String
  entity_type : String
  name : String
  attributes : Attrs
  created_at : String
  updated_at : String
deriving DecidableEq, Repr

/-- `GraphEdge` from `types.ts`. -/
structure GraphEdge where
  id : String
  logical_id : String
  classification_level : String
  source_node_id : String
  target_node_id : String
  relation_type : String
  attributes : Attrs
  created_at : String
deriving DecidableEq, Repr

/-- `AuditLog` from `types.ts`. -/
structure AuditLog where
  id : String
  user_id : String
  query_text : String
  query_type : String
  result_count : Nat
  access_granted : Bool
  denial_reason : Option String
  created_at : String
deriving DecidableEq, Repr

/-! ## Dates

Millisecond timestamps and the ISO-8601 subset the program reads and
writes (`new Date(string).getTime()`, `Date.parse`, `toISOString`).
The civil-calendar conversion is the standard era-based algorithm. -/

/-- Whether a year is a leap year in the proleptic Gregorian calendar. -/
def isLeapYear (y : Int) : Bool :=
  Int.emod y 4 = 0 && (Int.emod y 100 ≠ 0 || Int.emod y 400 = 0)

/-- Number of days in a month. -/
def daysInMonth (y m : Int) : Int :=
  if m = 1 ∨ m = 3 ∨ m = 5 ∨ m = 7 ∨ m = 8 ∨ m = 10 ∨ m = 12 then 31
  else if m = 4 ∨ m = 6 ∨ m = 9 ∨ m = 11 then 30
  else if isLeapYear y then 29
  else 28

/-- Days since the Unix epoch of a civil date (era-based algorithm). -/
def daysFromCivil (y m d : Int) : Int :=
  let y' := if m ≤ 2 then y - 1 else y
  let era := Int.ediv y' 400
  let yoe := y' - era * 400
  let mp := if m > 2 then m - 3 else m + 9
  let doy := Int.ediv (153 * mp + 2) 5 + d - 1
  let doe := yoe * 365 + Int.ediv yoe 4 - Int.ediv yoe 100 + doy
  era * 146097 + doe - 719468

/-- Civil date (year, month, day) of a day count since the Unix epoch. -/
def civilFromDays (z : Int) : Int × Int × Int :=
  let z' := z + 719468
  let era := Int.ediv z' 146097
  let doe := z' - era * 146097
  let yoe := Int.ediv
    (doe - Int.ediv doe 1460 + Int.ediv doe 36524 - Int.ediv doe 146096) 365
  let y := yoe + era * 400
  let doy := doe - (365 * yoe + Int.ediv yoe 4 - Int.ediv yoe 100)
  let mp := Int.ediv (5 * doy + 2) 153
  let d := doy - Int.ediv (153 * mp + 2) 5 + 1
  let m := if mp < 10 then mp + 3 else mp - 9
  (if m ≤ 2 then y + 1 else y, m, d)

/-- Millisecond timestamp of a UTC civil date and time. -/
def dateMs (y m d hh mi ss ms : Int) : Int :=
  daysFromCivil y m d * 86400000 + hh * 3600000 + mi * 60000 + ss * 1000 + ms

/-- Value of an ASCII digit. -/
def digitVal (c : Char) : Option Nat :=
  if c.isDigit then some (c.toNat - 48) else none

/-- Value of a fixed-width digit run. -/
def digitsVal : List Char → Option Nat
  | [] => some 0
  | c :: rest => do
      let d ← digitVal c
      let r ← digitsVal rest
      pure (d * 10 ^ rest.length + r)

/-- `Date.parse` / `new Date(string).getTime()` for the ISO-8601 forms
the program produces and stores: `YYYY-MM-DD`,
`YYYY-MM-DDTHH:MM:SSZ` and `YYYY-MM-DDTHH:MM:SS.mmmZ` (all UTC).
Anything else is an invalid date (`NaN`), modelled as `none`. -/
def parseDate (s : String) : Option Int :=
  match s.toList with
  | y1 :: y2 :: y3 :: y4 :: '-' :: m1 :: m2 :: '-' :: d1 :: d2 :: rest => do
      let y ← digitsVal [y1, y2, y3, y4]
      let m ← digitsVal [m1, m2]
      let d ← digitsVal [d1, d2]
      if 1 ≤ m ∧ m ≤ 12 ∧ 1 ≤ d ∧ (d : Int) ≤ daysInMonth y m then
        match rest with
        | [] => some (dateMs y m d 0 0 0 0)
        | 'T' :: h1 :: h2 :: ':' :: i1 :: i2 :: ':' :: s1 :: s2 :: rest2 => do
            let hh ← digitsVal [h1, h2]
            let mi ← digitsVal [i1, i2]
            let ss ← digitsVal [s1, s2]
            if hh ≤ 23 ∧ mi ≤ 59 ∧ ss ≤ 59 then
              match rest2 with
              | ['Z'] => some (dateMs y m d hh mi ss 0)
              | '.' :: f1 :: f2 :: f3 :: ['Z'] => do
                  let ms ← digitsVal [f1, f2, f3]
                  some (dateMs y m d hh mi ss ms)
              | _ => none
            else none
        | _ => none
      else none
  | _ => none

/-- Zero-padded decimal rendering of a natural number. -/
def natPad (width n : Nat) : String :=
  let s := toString n
  (String.mk (List.replicate (width - s.length) '0')) ++ s

/-- `Date.prototype.toISOString` for timestamps whose year lies in
0..9999 (the only range the program produces). -/
def jsToISOString (t : Int) : String :=
  let days := Int.ediv t 86400000
  let ofDay := (Int.emod t 86400000).toNat
  let c := civilFromDays days
  natPad 4 c.1.toNat ++ "-" ++ natPad 2 c.2.1.toNat ++ "-" ++ natPad 2 c.2.2.toNat ++
    "T" ++ natPad 2 (ofDay / 3600000) ++ ":" ++ natPad 2 (ofDay / 60000 % 60) ++
    ":" ++ natPad 2 (ofDay / 1000 % 60) ++ "." ++ natPad 3 (ofDay % 1000) ++ "Z"

/-! ## Access policy evaluator (`src/lib/policy.ts`) -/

/-- `CLEARANCE_LEVELS[level] || 0` from `policy.ts`: the rank table
{UNCLASSIFIED = 0, CONFIDENTIAL = 1, SECRET = 2}; an unknown level
looks up `undefined`, and `|| 0` yields rank 0. -/
def clearanceRank (level : String) : Nat :=
  if level = "UNCLASSIFIED" then 0
  else if level = "CONFIDENTIAL" then 1
  else if level = "SECRET" then 2
  else 0

/-- `checkClearance` from `policy.ts`. -/
def checkClearance (userLevel dataLevel : String) : Bool :=
  clearanceRank userLevel ≥ clearanceRank dataLevel

/-- `checkSectorAccess` from `policy.ts`.  The node-or-edge argument is
represented by its attribute map, the only field the function reads. -/
def checkSectorAccess (user : User) (data : Attrs) : Bool :=
  let userSector := getAttr user.attributes "sector"
  let userRole := getAttr user.attributes "role"
  if userRole = some (.aStr "commander") then
    true
  else if !truthy userSector then
    false
  else
    let dataSector := getAttr data "sector"
    if !truthy dataSector then
      true
    else
      match userSector, dataSector with
      | some u, some d => jsStrictEq u d
      | _, _ => false

/-- `filterAccessibleNodes` from `policy.ts`. -/
def filterAccessibleNodes (user : User) (nodes : List GraphNode) : List GraphNode :=
  nodes.filter fun node =>
    if !checkClearance user.clearance_level node.classification_level then
      false
    else
      checkSectorAccess user node.attributes

/-- `filterAccessibleEdges` from `policy.ts`. -/
def filterAccessibleEdges (user : User) (edges : List GraphEdge) : List GraphEdge :=
  edges.filter fun edge =>
    if !checkClearance user.clearance_level edge.classification_level then
      false
    else
      checkSectorAccess user edge.attributes

/-- `checkKAnonymity` from `policy.ts`; the source gives `minK` the
default value 2, which every call site uses. -/
def checkKAnonymity (resultCount : Nat) (minK : Nat) : Bool :=
  resultCount ≥ minK

/-- `checkQueryBudget` from `policy.ts`. -/
def checkQueryBudget (user : User) : Bool :=
  user.query_budget > 0

/-! ## Claim C1: the node-access filter -/

/-- Rank table exactly as claim C1 states it (UNCLASSIFIED = 0,
CONFIDENTIAL = 1, SECRET = 2, unknown levels rank 0). -/
def specRank (level : String) : Nat :=
  if level = "UNCLASSIFIED" then 0
  else if level = "CONFIDENTIAL" then 1
  else if level = "SECRET" then 2
  else 0

/-- The access predicate exactly as claim C1 states it:
`rank(U.clearance) ≥ rank(N.classification)` and (`U.role` is
"commander", or `N` has no sector attribute, or `N`'s sector equals
`U`'s sector).  Absence of a sector attribute is the JS-falsy notion
the code uses (absent or empty). -/
def nodeAccessSpecC1 (user : User) (node : GraphNode) : Bool :=
  specRank user.clearance_level ≥ specRank node.classification_level &&
    (getAttr user.attributes "role" = some (.aStr "commander") ||
      !truthy (getAttr node.attributes "sector") ||
      (match getAttr user.attributes "sector", getAttr node.attributes "sector" with
        | some u, some d => jsStrictEq u d
        | _, _ => false))

/-- The amended access predicate: claim C1 with the missing conjunct
restored — a non-commander user must also carry a (truthy) sector
attribute of their own, otherwise every node is denied. -/
def nodeAccessAmendedC1 (user : User) (node : GraphNode) : Bool :=
  specRank user.clearance_level ≥ specRank node.classification_level &&
    (getAttr user.attributes "role" = some (.aStr "commander") ||
      (truthy (getAttr user.attributes "sector") &&
        (!truthy (getAttr node.attributes "sector") ||
          (match getAttr user.attributes "sector", getAttr node.attributes "sector" with
            | some u, some d => jsStrictEq u d
            | _, _ => false))))

/-- A user with adequate clearance but no sector attribute and no
commander role. -/
def c1User : User :=
  { id := "u-nosector", username := "nosector",
    clearance_level := "UNCLASSIFIED", attributes := [],
    query_budget := 5, budget_reset_at := "2024-05-12T11:00:00.000Z" }

/-- A sector-less UNCLASSIFIED node. -/
def c1Node : GraphNode :=
  { id := "plain_UNCLASSIFIED", logical_id := "plain",
    classification_level := "UNCLASSIFIED", entity_type := "Target",
    name := "plain", attributes := [],
    created_at := "2024-05-12T10:00:00.000Z",
    updated_at := "2024-05-12T10:00:00.000Z" }

/-! ## Claim C2: the sector check -/

/-- `SectorAllowed` exactly as claim C2 states it: true unconditionally
for role "commander"; otherwise false when the user has no sector
attribute; otherwise true when the data item has no sector attribute;
otherwise true iff the two sector attributes are exactly equal.
Absence is the JS-falsy notion the code uses, and exact equality of
values is JS strict equality (`===`). -/
def sectorAllowedSpec (user : User) (data : Attrs) : Bool :=
  if getAttr user.attributes "role" = some (.aStr "commander") then
    true
  else if !truthy (getAttr user.attributes "sector") then
    false
  else if !truthy (getAttr data "sector") then
    true
  else
    match getAttr user.attributes "sector", getAttr data "sector" with
    | some u, some d => jsStrictEq u d
    | _, _ => false


/-! ## Data store (`src/lib/dataStore.ts`) -/

/-- The in-memory stores of `dataStore.ts` (`usersStore`, `nodesStore`,
`edgesStore`, `auditLogStore`), plus a counter indexing the successive
`Math.random` draws of the process. -/
structure Store where
  users : List User
  nodes : List GraphNode
  edges : List GraphEdge
  audit : List AuditLog
  rngIdx : Nat
deriving DecidableEq, Repr

/-- Environment-dependent primitives the engine calls but whose values
no claim depends on: the floating-point haversine distance
(`calculateDistanceKm`), locale-dependent time rendering
(`toLocaleTimeString`), and the `Math.random`-derived suffix stream
used by `generateId` and the import fallbacks (indexed by draw). -/
structure Env where
  distKm : Rat → Rat → Rat → Rat → Rat
  localeTime : Int → String
  fresh : Nat → String

/-- A concrete environment used to evaluate witnesses. -/
def trivEnv : Env :=
  { distKm := fun _ _ _ _ => 0
    localeTime := fun _ => ""
    fresh := fun _ => "r" }

/-- Update the first element satisfying a predicate (the effect of
mutating the result of `Array.prototype.find`). -/
def updateFirst (p : α → Bool) (f : α → α) : List α → List α
  | [] => []
  | x :: xs => if p x then f x :: xs else x :: updateFirst p f xs

/-- `getMaxBudget` from `dataStore.ts`. -/
def getMaxBudget : String → Int
  | "SECRET" => 20
  | "CONFIDENTIAL" => 8
  | _ => 5

/-- `maybeResetBudget` from `dataStore.ts`, with the current time as an
explicit argument.  An unparseable `budget_reset_at` gives `NaN`, which
fails the `Number.isFinite` guard, so nothing is reset. -/
def maybeResetBudget (now : Int) (user : User) : User :=
  match parseDate user.budget_reset_at with
  | some resetAt =>
      if now ≥ resetAt then
        { user with
          query_budget := getMaxBudget user.clearance_level
          budget_reset_at := jsToISOString (now + 60 * 60 * 1000) }
      else user
  | none => user

/-- `findUserById` from `dataStore.ts`: the budget-reset check happens
as a side effect of the read, on the stored user.  Returns the (clone
of the) user and the updated store. -/
def findUserById (now : Int) (st : Store) (id : String) :
    Option User × Store :=
  match st.users.find? (fun u => u.id = id) with
  | none => (none, st)
  | some u =>
      (some (maybeResetBudget now u),
        { st with users := updateFirst (fun u => u.id = id) (maybeResetBudget now) st.users })

/-- `decrementBudget` from `dataStore.ts`. -/
def decrementBudget (now : Int) (st : Store) (id : String) : Store :=
  match st.users.find? (fun u => u.id = id) with
  | none => st
  | some _ =>
      { st with
        users := updateFirst (fun u => u.id = id)
          (fun u =>
            let u := maybeResetBudget now u
            if u.query_budget > 0 then
              { u with query_budget := u.query_budget - 1 }
            else u)
          st.users }

/-- `insertAuditLog` from `dataStore.ts`: prepends (`unshift`) a log
record whose id carries a `Math.random` suffix (drawn from the
environment's stream) and whose `created_at` is the current time. -/
def insertAuditLog (env : Env) (now : Int) (st : Store)
    (user_id query_text query_type : String) (result_count : Nat)
    (access_granted : Bool) (denial_reason : Option String) : Store :=
  { st with
    audit :=
      { id := "audit-" ++ env.fresh st.rngIdx
        user_id := user_id
        query_text := query_text
        query_type := query_type
        result_count := result_count
        access_granted := access_granted
        denial_reason := denial_reason
        created_at := jsToISOString now } :: st.audit
    rngIdx := st.rngIdx + 1 }

/-- A SECRET-cleared user whose budget reset time has passed, for the
claim-C6 witness. -/
def c6User : User :=
  { id := "u-c6", username := "c6",
    clearance_level := "SECRET",
    attributes := [("sector", .aStr "A")],
    query_budget := 1,
    budget_reset_at := "2024-05-12T09:00:00.000Z" }

/-! ## JavaScript string and number operations

The query text is mixed Russian/English; `toLowerCase`/`toUpperCase`
are modelled for the ASCII and Cyrillic ranges the program uses. -/

/-- `String.prototype.toLowerCase` restricted to ASCII and Cyrillic. -/
def charToLower (c : Char) : Char :=
  if 'A' ≤ c ∧ c ≤ 'Z' then Char.ofNat (c.toNat + 32)
  else if 0x410 ≤ c.toNat ∧ c.toNat ≤ 0x42F then Char.ofNat (c.toNat + 0x20)
  else if c.toNat = 0x401 then Char.ofNat 0x451
  else c

/-- `String.prototype.toUpperCase` restricted to ASCII and Cyrillic. -/
def charToUpper (c : Char) : Char :=
  if 'a' ≤ c ∧ c ≤ 'z' then Char.ofNat (c.toNat - 32)
  else if 0x430 ≤ c.toNat ∧ c.toNat ≤ 0x44F then Char.ofNat (c.toNat - 0x20)
  else if c.toNat = 0x451 then Char.ofNat 0x401
  else c

/-- `toLowerCase` on strings. -/
def jsToLower (s : String) : String := String.mk (s.toList.map charToLower)

/-- `toUpperCase` on strings. -/
def jsToUpper (s : String) : String := String.mk (s.toList.map charToUpper)

/-- The JS whitespace characters (`\s`) occurring in practice. -/
def jsIsSpace (c : Char) : Bool :=
  c = ' ' ∨ c = '\t' ∨ c = '\n' ∨ c = '\r' ∨ c.toNat = 0x0B ∨ c.toNat = 0x0C ∨
    c.toNat = 0xA0

/-- Substring containment on char lists. -/
def charsInclude (needle : List Char) : List Char → Bool
  | [] => needle.isEmpty
  | c :: rest => needle.isPrefixOf (c :: rest) || charsInclude needle rest

/-- `String.prototype.includes`. -/
def jsIncludes (s sub : String) : Bool := charsInclude sub.toList s.toList

/-- Split into the maximal runs not containing a separator character
(`split(/[\s,]+/u).filter(Boolean)`); `cur` accumulates the current
run in reverse. -/
def splitRunsAux (p : Char → Bool) : List Char → List Char → List String
  | [], cur => if cur.isEmpty then [] else [String.mk cur.reverse]
  | c :: rest, cur =>
      if p c then
        if cur.isEmpty then splitRunsAux p rest []
        else String.mk cur.reverse :: splitRunsAux p rest []
      else splitRunsAux p rest (c :: cur)

/-- Split into maximal separator-free runs. -/
def splitRuns (p : Char → Bool) (cs : List Char) : List String :=
  splitRunsAux p cs []

/-- Tokenisation of the query: split on whitespace and commas, drop
empties. -/
def splitTokens (s : String) : List String :=
  splitRuns (fun c => jsIsSpace c || c = ',') s.toList

/-- Truncation toward zero of a rational (JS `ToIntegerOrInfinity`). -/
def ratTrunc (q : Rat) : Int := Int.tdiv q.num q.den

/-- Decimal rendering of a rational whose denominator divides a power
of ten — the only numbers the engine ever renders (JS prints doubles
via their shortest decimal representation; the numbers the program
formats all have exact short decimal forms). -/
def ratToString (q : Rat) : String :=
  let sign := if q.num < 0 then "-" else ""
  let n := q.num.natAbs
  if q.den = 1 then sign ++ toString n
  else
    let k := (List.range 30).find? (fun k => q.den ∣ 10 ^ (k + 1))
    match k with
    | some k =>
        let scaled := n * (10 ^ (k + 1) / q.den)
        let ip := scaled / 10 ^ (k + 1)
        let fp := scaled % 10 ^ (k + 1)
        sign ++ toString ip ++ "." ++ natPad (k + 1) fp
    | none => sign ++ toString n ++ "/" ++ toString q.den

/-- Unsigned decimal numeral (`digits`, `digits.digits`, `digits.`,
`.digits`) to an exact rational. -/
def parseUnsignedDec (cs : List Char) : Option Rat :=
  let ipart := cs.takeWhile Char.isDigit
  let rest := cs.dropWhile Char.isDigit
  match rest with
  | [] =>
      if ipart.isEmpty then none
      else (digitsVal ipart).map (fun n => (n : Rat))
  | '.' :: rest2 =>
      let fpart := rest2.takeWhile Char.isDigit
      let rest3 := rest2.dropWhile Char.isDigit
      if rest3.isEmpty ∧ ¬(ipart.isEmpty ∧ fpart.isEmpty) then do
        let i ← digitsVal ipart
        let f ← digitsVal fpart
        pure ((i : Rat) + (f : Rat) / (10 ^ fpart.length : Nat))
      else none
  | _ => none

/-- JS `Number(string)`: trimmed empty string is 0; plain signed
decimal numerals parse exactly; anything else the program feeds in is
`NaN` (`none`).  (Exponent/hex forms never occur in this program.) -/
def jsStrToNumber (s : String) : Option Rat :=
  let t := (s.toList.dropWhile jsIsSpace).reverse.dropWhile jsIsSpace |>.reverse
  match t with
  | [] => some 0
  | '-' :: rest => (parseUnsignedDec rest).map (fun q => -q)
  | '+' :: rest => parseUnsignedDec rest
  | _ => parseUnsignedDec t

/-- JS string coercion of an attribute value (`toString`); arrays join
their elements with commas. -/
def jsToString : AttrVal → String
  | .aStr s => s
  | .aNum q => ratToString q
  | .aStrList xs => String.intercalate "," xs
  | .aNumList xs => String.intercalate "," (xs.map ratToString)

/-- JS `Number(value)` on an attribute value (`NaN` is `none`). -/
def jsToNumber : AttrVal → Option Rat
  | .aNum q => some q
  | v => jsStrToNumber (jsToString v)

/-- First truthy value of a JS `||` chain, with a default. -/
def jsOrChain : List (Option AttrVal) → AttrVal → AttrVal
  | [], dflt => dflt
  | a :: rest, dflt =>
      match a with
      | some v => if truthyVal v then v else jsOrChain rest dflt
      | none => jsOrChain rest dflt

/-- First truthy value of a JS `||` chain without default (the chain
value if some operand is truthy, otherwise the last operand's
falsiness is all that matters). -/
def jsOrChainOpt : List (Option AttrVal) → Option AttrVal
  | [] => none
  | a :: rest =>
      match a with
      | some v => if truthyVal v then some v else jsOrChainOpt rest
      | none => jsOrChainOpt rest

/-- First defined value of a JS `??` (nullish-coalescing) chain. -/
def firstSome : List (Option AttrVal) → Option AttrVal
  | [] => none
  | some v :: _ => some v
  | none :: rest => firstSome rest

/-- JS truthiness of an optional string (`undefined` and `""` falsy). -/
def strOptTruthy : Option String → Bool
  | none => false
  | some s => !s.isEmpty

/-- `new Date(value).getTime()` for the values the filters feed in:
strings parse as dates, numbers are millisecond timestamps (clipped at
±8.64e15), arrays coerce through their string form. -/
def jsNewDate : AttrVal → Option Int
  | .aNum q =>
      if q.num.natAbs ≤ 8640000000000000 * q.den then some (ratTrunc q) else none
  | v => parseDate (jsToString v)

/-- JS code-unit-wise string less-than. -/
def charListLt : List Char → List Char → Bool
  | [], [] => false
  | [], _ :: _ => true
  | _ :: _, [] => false
  | a :: as, b :: bs =>
      if a.toNat < b.toNat then true
      else if b.toNat < a.toNat then false
      else charListLt as bs

/-- JS `<` on strings. -/
def jsStrLt (a b : String) : Bool := charListLt a.toList b.toList

/-- Replace the first occurrence of a character (JS
`String.prototype.replace` with a one-character string pattern). -/
def replaceFirstChar (c r : Char) : List Char → List Char
  | [] => []
  | x :: xs => if x = c then r :: xs else x :: replaceFirstChar c r xs

/-- `value.replace(',', '.')` as used on numeric captures. -/
def commaToDot (s : String) : String :=
  String.mk (replaceFirstChar ',' '.' s.toList)

/-! ## Regular expressions

A small backtracking regex engine, faithful to the leftmost /
greedy-with-backtracking semantics of the JS `RegExp` constructs the
parser uses (literals, character classes, ordered alternation, greedy
`*`/`+`/`?`, and numbered capture groups; no lazy quantifiers occur in
the source). -/

/-- Regex abstract syntax. -/
inductive RE where
  | eps : RE
  | cls (p : Char → Bool) : RE
  | cat (a b : RE) : RE
  | alt (a b : RE) : RE
  | star (a : RE) : RE
  | opt (a : RE) : RE
  | grp (n : Nat) (a : RE) : RE

/-- Capture list: group number to captured characters. -/
abbrev Caps := List (Nat × List Char)

/-- Record a capture (last write wins, as in JS). -/
def setCap (g : Caps) (n : Nat) (v : List Char) : Caps :=
  match g with
  | [] => [(n, v)]
  | (m, w) :: rest => if m = n then (m, v) :: rest else (m, w) :: setCap rest n v

/-- Read a capture as a string. -/
def capStr (g : Caps) (n : Nat) : Option String :=
  ((g.find? (fun p => p.1 = n)).map (·.2)).map String.mk

/-- Backtracking matcher in continuation-passing style; the fuel only
bounds recursion depth and is chosen generously by the callers. -/
def reM (fuel : Nat) (re : RE) (s : List Char) (g : Caps)
    (k : List Char → Caps → Option (List Char × Caps)) :
    Option (List Char × Caps) :=
  match fuel with
  | 0 => none
  | fuel + 1 =>
    match re with
    | .eps => k s g
    | .cls p =>
        match s with
        | [] => none
        | c :: rest => if p c then k rest g else none
    | .cat a b => reM fuel a s g (fun s' g' => reM fuel b s' g' k)
    | .alt a b =>
        match reM fuel a s g k with
        | some r => some r
        | none => reM fuel b s g k
    | .opt a =>
        match reM fuel a s g k with
        | some r => some r
        | none => k s g
    | .star a =>
        match reM fuel a s g (fun s' g' =>
            if s'.length < s.length then reM fuel (.star a) s' g' k
            else none) with
        | some r => some r
        | none => k s g
    | .grp n a =>
        reM fuel a s g (fun s' g' =>
          k s' (setCap g' n (s.take (s.length - s'.length))))

/-- Try to match a regex at the start of the input; returns consumed
length and captures. -/
def reMatchAt (re : RE) (s : List Char) : Option (Nat × Caps) :=
  match reM (200 * (s.length + 2)) re s [] (fun rest g => some (rest, g)) with
  | some (rest, g) => some (s.length - rest.length, g)
  | none => none

/-- Leftmost match: matched characters, captures, and the remaining
input after the match. -/
def reSearch (re : RE) (s : List Char) :
    Option (List Char × Caps × List Char) :=
  match reMatchAt re s with
  | some (len, g) => some (s.take len, g, s.drop len)
  | none =>
      match s with
      | [] => none
      | _ :: rest => reSearch re rest

/-- First match of a regex in a string (`String.prototype.match`
without the `g` flag): the matched text and the captures. -/
def execFirst (re : RE) (s : String) : Option (String × Caps) :=
  (reSearch re s.toList).map (fun r => (String.mk r.1, r.2.1))

/-- All matches of a global regex (`regex.exec` loop); every regex the
program iterates matches at least one character, so the scan advances. -/
def reAllAux (re : RE) (fuel : Nat) (s : List Char) :
    List (List Char × Caps) :=
  match fuel with
  | 0 => []
  | fuel + 1 =>
    match reSearch re s with
    | none => []
    | some (m, g, rest) =>
        if m.isEmpty then [] else (m, g) :: reAllAux re fuel rest

/-- All matches, as strings with captures. -/
def execAll (re : RE) (s : String) : List (String × Caps) :=
  (reAllAux re (s.length + 1) s.toList).map (fun r => (String.mk r.1, r.2))

/-- Literal character. -/
def rChar (c : Char) : RE := .cls (fun x => x = c)

/-- Case-insensitive literal character (the `i` flag). -/
def rCharCI (c : Char) : RE :=
  .cls (fun x => x = charToLower c ∨ x = charToUpper c)

/-- Literal string. -/
def rStr (s : String) : RE := s.toList.foldr (fun c r => .cat (rChar c) r) .eps

/-- Case-insensitive literal string. -/
def rStrCI (s : String) : RE :=
  s.toList.foldr (fun c r => .cat (rCharCI c) r) .eps

/-- Concatenation of a list of regexes. -/
def rCat (l : List RE) : RE := l.foldr .cat .eps

/-- Ordered alternation of a list of regexes (first match wins). -/
def rAlts : List RE → RE
  | [] => .cls (fun _ => false)
  | [r] => r
  | r :: rest => .alt r (rAlts rest)

/-- One-or-more. -/
def rPlus (a : RE) : RE := .cat a (.star a)

/-- `\s`. -/
def rWs : RE := .cls jsIsSpace

/-- `\d`. -/
def rDigit : RE := .cls Char.isDigit

/-- `[a-z]`, with the `i` flag also `[A-Z]`. -/
def isAsciiLetter (c : Char) : Bool :=
  ('a' ≤ c ∧ c ≤ 'z') ∨ ('A' ≤ c ∧ c ≤ 'Z')

/-- `[а-я]`, with the `i` flag also `[А-Я]` (note: `ё` not included). -/
def isCyrLetter (c : Char) : Bool :=
  (0x430 ≤ c.toNat ∧ c.toNat ≤ 0x44F) ∨ (0x410 ≤ c.toNat ∧ c.toNat ≤ 0x42F)

/-- `.` (anything but a line terminator). -/
def isDotChar (c : Char) : Bool :=
  ¬(c = '\n' ∨ c = '\r' ∨ c.toNat = 0x2028 ∨ c.toNat = 0x2029)

/-! ## Query language parser (`src/lib/queryEngine.ts`) -/

/-- Query intent (`'count' | 'list' | 'timeline'`). -/
inductive Intent where
  | count
  | list
  | timeline
deriving DecidableEq, Repr

/-- The AND/OR logic-operator flag. -/
inductive LogicOp where
  | AND
  | OR
deriving DecidableEq, Repr

/-- A parsed comparison value (`number | string`). -/
inductive NumOrStr where
  | num (q : Rat)
  | str (s : String)
deriving DecidableEq, Repr

/-- `ComparisonFilter` from the source. -/
structure ComparisonFilter where
  attr : String
  operator : String
  value : NumOrStr
  raw : String
  display : String
deriving DecidableEq, Repr

/-- An absolute time range; the source's `end` field is called `stop`
(`end` is reserved in Lean). -/
structure TimeRange where
  start : Int
  stop : Int
  raw : String
deriving DecidableEq, Repr

/-- A geo-radius filter. -/
structure GeoFilter where
  lat : Rat
  lon : Rat
  radiusKm : Rat
  raw : String
deriving DecidableEq, Repr

/-- `ParsedQuery` from the source; recognized fragments are (text,
type) pairs. -/
structure ParsedQuery where
  intent : Intent
  entityType : Option String
  entityLabel : Option String
  sectorFilters : List String
  timeWindowHours : Option Rat
  timeWindowRaw : Option String
  timeRange : Option TimeRange
  statusFilters : List String
  categoryFilters : List String
  levelFilter : Option String
  logicOperator : LogicOp
  geoFilter : Option GeoFilter
  limit : Option Nat
  comparisons : List ComparisonFilter
  tokens : List String
  tips : List String
  recognized : List (String × String)
  warnings : List String
deriving DecidableEq, Repr

/-- The dataset's nominal current instant
(`DATA_REFERENCE_TIME = 2024-05-12T10:00:00Z`). -/
def DATA_REFERENCE_TIME : Int := dateMs 2024 5 12 10 0 0 0

/-- One entry of `ENTITY_KEYWORDS`. -/
structure EntityEntry where
  keywords : List String
  entityType : String
  label : String
  category : Option String
  intent : Option Intent
  tips : List String

/-- `ENTITY_KEYWORDS`, in source order. -/
def ENTITY_KEYWORDS : List EntityEntry :=
  [ { keywords := ["беспилотн", "дрон", "uav", "бпла"], entityType := "Target",
      label := "Беспилотники", category := some "uav", intent := none, tips := [] },
    { keywords := ["цель", "target", "object"], entityType := "Target",
      label := "Воздушные цели", category := none, intent := none, tips := [] },
    { keywords := ["сенсор", "sensor", "радар", "радиолок"], entityType := "Sensor",
      label := "Сенсоры", category := none, intent := none,
      tips := ["Можно добавить фильтр статуса: «сенсоры offline»."] },
    { keywords := ["событи", "event", "инцидент", "операция"], entityType := "Event",
      label := "События", category := none, intent := some .timeline,
      tips := ["Используйте временной диапазон: «последние 30 минут»."] },
    { keywords := ["сектор", "sector"], entityType := "Sector",
      label := "Сектора", category := none, intent := none,
      tips := ["Уточните, что нужно: цели, сенсоры или события внутри сектора."] } ]

/-- `STATUS_KEYWORDS`, in source (insertion) order. -/
def STATUS_KEYWORDS : List (String × String) :=
  [("offline", "offline"), ("недоступн", "offline"), ("неработающ", "offline"),
   ("обесточен", "offline"), ("online", "online"), ("работоспособн", "online"),
   ("вкл", "online"), ("активн", "online")]

/-- `CATEGORY_KEYWORDS`, in source order. -/
def CATEGORY_KEYWORDS : List (String × String) :=
  [("uav", "uav"), ("бпла", "uav"), ("helikopter", "helicopter"),
   ("вертолет", "helicopter"), ("helicopter", "helicopter"),
   ("unknown", "unknown"), ("group", "airgroup")]

/-- `LEVEL_KEYWORDS`, in source order (first match wins). -/
def LEVEL_KEYWORDS : List (String × String) :=
  [("секрет", "SECRET"), ("secret", "SECRET"), ("уровень h", "SECRET"),
   ("уровень m", "CONFIDENTIAL"), ("confid", "CONFIDENTIAL"),
   ("секретн", "SECRET"), ("dsp", "CONFIDENTIAL"),
   ("confidential", "CONFIDENTIAL"), ("unclassified", "UNCLASSIFIED"),
   ("уровень l", "UNCLASSIFIED"), ("общедоступн", "UNCLASSIFIED")]

/-- `ATTRIBUTE_ALIASES`, in source order. -/
def ATTRIBUTE_ALIASES : List (String × String) :=
  [("скорост", "speed"), ("speed", "speed"), ("heading", "heading"),
   ("курс", "heading"), ("высот", "altitude"), ("altitude", "altitude"),
   ("угроз", "threat_level"), ("threat", "threat_level"),
   ("status", "status"), ("статус", "status"),
   ("операцион", "operational"), ("distance", "distance")]

/-- `THREAT_ORDER`. -/
def THREAT_ORDER : List (String × Nat) :=
  [("low", 1), ("medium", 2), ("elevated", 3), ("high", 4), ("critical", 5)]

/-- `normalizeCategory` from the source. -/
def normalizeCategory (value : String) : Option String :=
  if value.isEmpty then none
  else
    let lower := jsToLower value
    match CATEGORY_KEYWORDS.find? (fun p => jsIncludes lower p.1) with
    | some p => some p.2
    | none => some lower

/-- Result shape of `detectEntity`. -/
structure DetectResult where
  entityType : Option String
  entityLabel : Option String
  category : Option String
  intent : Intent
  tips : List String

/-- `detectEntity` from the source: first keyword group contained in
the lower-cased query wins. -/
def detectEntity (lowerQuery : String) : DetectResult :=
  match ENTITY_KEYWORDS.find?
      (fun entry => entry.keywords.any (fun k => jsIncludes lowerQuery k)) with
  | some entry =>
      { entityType := some entry.entityType, entityLabel := some entry.label,
        category := entry.category, intent := entry.intent.getD .list,
        tips := entry.tips }
  | none =>
      { entityType := none, entityLabel := none, category := none,
        intent := .list, tips := [] }

/-- Append an element to a JS `Set` (insertion-ordered, deduplicated). -/
def insertUnique (l : List String) (x : String) : List String :=
  if l.contains x then l else l ++ [x]

/-- `/сектор[е]?\s+([a-zа-я])/gi`. -/
def sectorRuRe : RE :=
  rCat [rStrCI "сектор", .opt (rCharCI 'е'), rPlus rWs,
    .grp 1 (.cls (fun c => isAsciiLetter c ∨ isCyrLetter c))]

/-- `/sector\s+([a-z])/gi`. -/
def sectorEnRe : RE :=
  rCat [rStrCI "sector", rPlus rWs, .grp 1 (.cls isAsciiLetter)]

/-- `extractSectorFilters` from the source: the set of upper-cased
sector letters and the list of matched spans. -/
def extractSectorFilters (lowerQuery : String) : List String × List String :=
  let step := fun (acc : List String × List String) (m : String × Caps) =>
    (insertUnique acc.1 (jsToUpper ((capStr m.2 1).getD "")), acc.2 ++ [m.1])
  let afterRu := (execAll sectorRuRe lowerQuery).foldl step ([], [])
  (execAll sectorEnRe lowerQuery).foldl step afterRu

/-- `extractLevel` from the source. -/
def extractLevel (lowerQuery : String) : Option String :=
  (LEVEL_KEYWORDS.find? (fun p => jsIncludes lowerQuery p.1)).map (·.2)

/-- `extractStatusFilters` from the source. -/
def extractStatusFilters (lowerQuery : String) : List String × List String :=
  STATUS_KEYWORDS.foldl
    (fun acc p =>
      if jsIncludes lowerQuery p.1 then
        (insertUnique acc.1 p.2, acc.2 ++ [p.1])
      else acc)
    ([], [])

/-- `/категор(?:ия|ии)?\s+([a-zа-я0-9]+)/iu`. -/
def categoryRe : RE :=
  rCat [rStrCI "категор", .opt (.alt (rStrCI "ия") (rStrCI "ии")), rPlus rWs,
    .grp 1 (rPlus (.cls (fun c => isAsciiLetter c ∨ isCyrLetter c ∨ c.isDigit)))]

/-- `extractCategoryFilters` from the source: keyword table plus the
explicit "категория <word>" phrase. -/
def extractCategoryFilters (lowerQuery : String) : List String × List String :=
  let keyworded := CATEGORY_KEYWORDS.foldl
    (fun acc p =>
      if jsIncludes lowerQuery p.1 then
        (insertUnique acc.1 p.2, acc.2 ++ [p.1])
      else acc)
    ([], [])
  match execFirst categoryRe lowerQuery with
  | some (_, g) =>
      let cap := (capStr g 1).getD ""
      match normalizeCategory cap with
      | some normalized =>
          if normalized.isEmpty then keyworded
          else (insertUnique keyworded.1 normalized, keyworded.2 ++ [cap])
      | none => keyworded
  | none => keyworded

/-- The Russian/English time-unit alternation of the window regexes
(`минут|мин|minutes?|час(?:а|ов)?|hours?|дн(?:я|ей)?|days?`). -/
def twUnitRe : RE :=
  rAlts [rStr "минут", rStr "мин", rCat [rStr "minute", .opt (rChar 's')],
    rCat [rStr "час", .opt (.alt (rStr "а") (rStr "ов"))],
    rCat [rStr "hour", .opt (rChar 's')],
    rCat [rStr "дн", .opt (.alt (rStr "я") (rStr "ей"))],
    rCat [rStr "day", .opt (rChar 's')]]

/-- `/последн(?:ие|их)?\s+(\d+)\s+(<units>)/u`. -/
def twRe1 : RE :=
  rCat [rStr "последн", .opt (.alt (rStr "ие") (rStr "их")), rPlus rWs,
    .grp 1 (rPlus rDigit), rPlus rWs, .grp 2 twUnitRe]

/-- `/за\s+(\d+)\s+(<units>)/u`. -/
def twRe2 : RE :=
  rCat [rStr "за", rPlus rWs, .grp 1 (rPlus rDigit), rPlus rWs, .grp 2 twUnitRe]

/-- `/within\s+(\d+)\s+(minutes?|hours?|days?)/iu`. -/
def twRe3 : RE :=
  rCat [rStrCI "within", rPlus rWs, .grp 1 (rPlus rDigit), rPlus rWs,
    .grp 2 (rAlts [rCat [rStrCI "minute", .opt (rCharCI 's')],
      rCat [rStrCI "hour", .opt (rCharCI 's')],
      rCat [rStrCI "day", .opt (rCharCI 's')]])]

/-- `extractTimeWindow` from the source: window size in hours (exact
rational) and the matched span; a "right now" phrase yields a fixed
15-minute window. -/
def extractTimeWindow (lowerQuery : String) : Option Rat × Option String :=
  let tryPattern : RE → Option (Rat × String) := fun re =>
    (execFirst re lowerQuery).map (fun (m0, g) =>
      let value := (jsStrToNumber ((capStr g 1).getD "")).getD 0
      let unit := jsToLower ((capStr g 2).getD "")
      let hours :=
        if ["минут", "мин", "minute", "minutes"].any
            (fun token => jsIncludes unit token) then value / 60
        else if ["дн", "day", "days"].any (fun token => jsIncludes unit token) then
          value * 24
        else value
      (hours, m0))
  match tryPattern twRe1 <|> tryPattern twRe2 <|> tryPattern twRe3 with
  | some (hours, raw) => (some hours, some raw)
  | none =>
      if jsIncludes lowerQuery "прямо сейчас" ∨ jsIncludes lowerQuery "real-time" then
        (some (1 / 4 : Rat), some "прямо сейчас")
      else (none, none)

/-- `\d{1,2}:\d{2}`. -/
def timeHMRe : RE :=
  rCat [rDigit, .opt rDigit, rChar ':', rDigit, rDigit]

/-- `/(?:с|from)\s+(hh:mm)\s+(?:до|по|to)\s+(hh:mm)/u`. -/
def trReA : RE :=
  rCat [.alt (rStr "с") (rStr "from"), rPlus rWs, .grp 1 timeHMRe, rPlus rWs,
    rAlts [rStr "до", rStr "по", rStr "to"], rPlus rWs, .grp 2 timeHMRe]

/-- `/между\s+(hh:mm)\s+(?:и|and)\s+(hh:mm)/u`. -/
def trReB : RE :=
  rCat [rStr "между", rPlus rWs, .grp 1 timeHMRe, rPlus rWs,
    .alt (rStr "и") (rStr "and"), rPlus rWs, .grp 2 timeHMRe]

/-- `parseTimeToReference` from the source: resolve `HH:MM` against the
fixed reference date (`setHours` modelled in UTC, matching the
reference instant's UTC representation). -/
def parseTimeToReference (timeHHMM : String) : Option Int :=
  match timeHHMM.splitOn ":" with
  | [hs, ms] =>
      match jsStrToNumber hs, jsStrToNumber ms with
      | some hours, some minutes =>
          some (dateMs 2024 5 12 0 0 0 0 + ratTrunc hours * 3600000 +
            ratTrunc minutes * 60000)
      | _, _ => none
  | _ => none

/-- `extractTimeRange` from the source; a range wrapping past midnight
gets 24 hours added to its end. -/
def extractTimeRange (lowerQuery : String) : Option TimeRange :=
  match execFirst trReA lowerQuery <|> execFirst trReB lowerQuery with
  | none => none
  | some (m0, g) =>
      match parseTimeToReference ((capStr g 1).getD ""),
          parseTimeToReference ((capStr g 2).getD "") with
      | some s, some e =>
          some { start := s, stop := if e < s then e + 24 * 60 * 60 * 1000 else e,
                 raw := m0 }
      | _, _ => none

/-- `/(первые|показать|top|последние)\s+(\d+)/i`. -/
def limitRe : RE :=
  rCat [.grp 1 (rAlts [rStrCI "первые", rStrCI "показать", rStrCI "top",
    rStrCI "последние"]), rPlus rWs, .grp 2 (rPlus rDigit)]

/-- `extractLimit` from the source (the captured numeral is a
nonnegative integer). -/
def extractLimit (lowerQuery : String) : Option Nat :=
  (execFirst limitRe lowerQuery).bind (fun (_, g) =>
    digitsVal ((capStr g 2).getD "").toList)

/-- `normalizeAttributeAlias` from the source. -/
def normalizeAttributeAlias (aliasStr : String) : Option String :=
  let lower := jsToLower aliasStr
  (ATTRIBUTE_ALIASES.find? (fun p => jsIncludes lower p.1)).map (·.2)

/-- Identifier class `[a-zа-яё_]` of the comparison regex (with the
`i` flag). -/
def cmpIdChar (c : Char) : Bool :=
  isAsciiLetter c ∨ isCyrLetter c ∨ c.toNat = 0x451 ∨ c.toNat = 0x401 ∨ c = '_'

/-- Value letter class `[a-zа-яё]` of the comparison regex. -/
def cmpValChar (c : Char) : Bool :=
  isAsciiLetter c ∨ isCyrLetter c ∨ c.toNat = 0x451 ∨ c.toNat = 0x401

/-- `/([a-zа-яё_]+)\s*(>=|<=|>|<|=|!=)\s*([0-9]+(?:[.,][0-9]+)?|[a-zа-яё]+)/giu`. -/
def cmpRe : RE :=
  rCat [.grp 1 (rPlus (.cls cmpIdChar)), .star rWs,
    .grp 2 (rAlts [rStr ">=", rStr "<=", rStr ">", rStr "<", rStr "=", rStr "!="]),
    .star rWs,
    .grp 3 (.alt
      (rCat [rPlus rDigit, .opt (rCat [.cls (fun c => c = '.' ∨ c = ','),
        rPlus rDigit])])
      (rPlus (.cls cmpValChar)))]

/-- `extractComparisons` from the source: identifiers not mapped by the
alias table are discarded; numeric values parse exactly (comma as
decimal separator), non-numeric values are lower-cased strings. -/
def extractComparisons (lowerQuery : String) : List ComparisonFilter :=
  (execAll cmpRe lowerQuery).filterMap (fun m =>
    let id1 := (capStr m.2 1).getD ""
    match normalizeAttributeAlias id1 with
    | none => none
    | some attr =>
        let op := (capStr m.2 2).getD ""
        let raw3 := (capStr m.2 3).getD ""
        let rawValue := commaToDot raw3
        let value :=
          match jsStrToNumber rawValue with
          | some q => NumOrStr.num q
          | none => NumOrStr.str (jsToLower rawValue)
        some { attr := attr, operator := op, value := value,
               raw := m.1, display := id1 ++ " " ++ op ++ " " ++ raw3 })

/-- `[-+]?\d+(?:[.,]\d+)?`. -/
def signedNumRe : RE :=
  rCat [.opt (.cls (fun c => c = '-' ∨ c = '+')), rPlus rDigit,
    .opt (rCat [.cls (fun c => c = '.' ∨ c = ','), rPlus rDigit])]

/-- `/(num)\s*[;,]\s*(num)/` — the bare coordinate-pair form. -/
def geoRe1 : RE :=
  rCat [.grp 1 signedNumRe, .star rWs, .cls (fun c => c = ';' ∨ c = ','),
    .star rWs, .grp 2 signedNumRe]

/-- `/lat(?:itude)?\s*[:=]?\s*(num).*(?:lon|long|longitude)\s*[:=]?\s*(num)/i`. -/
def geoRe2 : RE :=
  rCat [rStrCI "lat", .opt (rStrCI "itude"), .star rWs,
    .opt (.cls (fun c => c = ':' ∨ c = '=')), .star rWs, .grp 1 signedNumRe,
    .star (.cls isDotChar),
    rAlts [rStrCI "lon", rStrCI "long", rStrCI "longitude"], .star rWs,
    .opt (.cls (fun c => c = ':' ∨ c = '=')), .star rWs, .grp 2 signedNumRe]

/-- `/радиус(?:е|а)?\s+(\d+(?:[.,]\d+)?)\s*(км|km)/`. -/
def radiusRe : RE :=
  rCat [rStr "радиус", .opt (.alt (rStr "е") (rStr "а")), rPlus rWs,
    .grp 1 (rCat [rPlus rDigit, .opt (rCat [.cls (fun c => c = '.' ∨ c = ','),
      rPlus rDigit])]),
    .star rWs, .grp 2 (.alt (rStr "км") (rStr "km"))]

/-- `extractGeoFilter` from the source: only attempted when the query
mentions coordinate vocabulary; the coordinate regexes run on the raw
query, the radius regex on its lower-cased form; radius defaults to
10 km. -/
def extractGeoFilter (query : String) : Option GeoFilter :=
  let normalized := jsToLower query
  if ¬(jsIncludes normalized "координат" ∨ jsIncludes normalized "lat" ∨
      jsIncludes normalized "широт") then none
  else
    match execFirst geoRe1 query <|> execFirst geoRe2 query with
    | none => none
    | some (m0, g) =>
        match jsStrToNumber (commaToDot ((capStr g 1).getD "")),
            jsStrToNumber (commaToDot ((capStr g 2).getD "")) with
        | some lat, some lon =>
            let radiusKm :=
              match execFirst radiusRe normalized with
              | some (_, gr) =>
                  (jsStrToNumber (commaToDot ((capStr gr 1).getD ""))).getD 10
              | none => 10
            some { lat := lat, lon := lon, radiusKm := radiusKm, raw := m0 }
        | _, _ => none

/-- JS truthiness of an optional number (`undefined` and `0` falsy). -/
def numOptTruthy : Option Rat → Bool
  | none => false
  | some q => q ≠ 0

/-- The body of `parseNaturalLanguage` up to (not including) the
unrecognized-query check: all extractions, in source order, with the
`recognized` fragments accumulated exactly as the source pushes them. -/
def parseBase (query : String) : ParsedQuery :=
  let lowerQuery := jsToLower query
  let tokens := splitTokens lowerQuery
  let de := detectEntity lowerQuery
  let recognized0 : List (String × String) :=
    match de.entityLabel with
    | some l => [(l, "entity")]
    | none => []
  let logicOperator : LogicOp :=
    if jsIncludes lowerQuery " или " || jsIncludes lowerQuery " or " then .OR
    else .AND
  let sectorInfo := extractSectorFilters lowerQuery
  let recognized1 := recognized0 ++ sectorInfo.2.map (fun t => (t, "sector"))
  let statusInfo := extractStatusFilters lowerQuery
  let recognized2 := recognized1 ++ statusInfo.2.map (fun t => (t, "status"))
  let categoryInfo := extractCategoryFilters lowerQuery
  let categoryValues :=
    match de.category with
    | some c => insertUnique categoryInfo.1 c
    | none => categoryInfo.1
  let recognized3 := recognized2 ++
    (match de.category with
      | some c => [(c, "category")]
      | none => [])
  let recognized4 := recognized3 ++ categoryInfo.2.map (fun t => (t, "category"))
  let levelFilter := extractLevel lowerQuery
  let recognized5 := recognized4 ++
    (match levelFilter with
      | some l => [(l, "level")]
      | none => [])
  let tw := extractTimeWindow lowerQuery
  let recognized6 := recognized5 ++
    (match tw.2 with
      | some raw => [(raw, "time_window")]
      | none => [])
  let timeRange := extractTimeRange lowerQuery
  let recognized7 := recognized6 ++
    (match timeRange with
      | some tr => [(tr.raw, "time_range")]
      | none => [])
  let geoFilter := extractGeoFilter query
  let recognized8 := recognized7 ++
    (match geoFilter with
      | some g => [(g.raw, "geo")]
      | none => [])
  let limit := extractLimit lowerQuery
  let recognized9 := recognized8 ++
    (match limit with
      | some l => [("limit:" ++ toString l, "limit")]
      | none => [])
  let comparisons := extractComparisons lowerQuery
  let recognizedAll := recognized9 ++ comparisons.map (fun c => (c.raw, "comparison"))
  { intent := de.intent
    entityType := de.entityType
    entityLabel := de.entityLabel
    sectorFilters := sectorInfo.1
    timeWindowHours := tw.1
    timeWindowRaw := tw.2
    timeRange := timeRange
    statusFilters := statusInfo.1
    categoryFilters := categoryValues
    levelFilter := levelFilter
    logicOperator := logicOperator
    geoFilter := geoFilter
    limit := limit
    comparisons := comparisons
    tokens := tokens
    tips := de.tips
    recognized := recognizedAll
    warnings := [] }

/-- The warning and tip pushes that follow the unrecognized-query check
in `parseNaturalLanguage`, in source order. -/
def addWarningsTips (parsed : ParsedQuery) : ParsedQuery :=
  let w1 :=
    if !strOptTruthy parsed.entityType then
      ["Тип сущности не указан — будут возвращены все объекты, доступные по политике."]
    else []
  let w2 :=
    if parsed.logicOperator = .OR ∧
        parsed.statusFilters.length + parsed.categoryFilters.length ≤ 1 then
      ["Оператор «или» обнаружен, но условие одно — результат совпадает с обычным фильтром."]
    else []
  let w3 :=
    if parsed.timeRange.isSome ∧ numOptTruthy parsed.timeWindowHours then
      ["Указаны и фиксированный диапазон времени, и скользящее окно. Применяется пересечение условий."]
    else []
  let t1 :=
    if parsed.sectorFilters.isEmpty then
      ["Добавьте сектор для точности: «в секторе A»."]
    else []
  let t2 :=
    if !parsed.statusFilters.isEmpty then
      ["Можно уточнить несколько статусов: offline, online, degraded."]
    else []
  let t3 :=
    if !parsed.comparisons.isEmpty then
      ["Сравнения поддерживаются для числовых полей: скорость, курс."]
    else []
  { parsed with
    warnings := parsed.warnings ++ w1 ++ w2 ++ w3
    tips := parsed.tips ++ t1 ++ t2 ++ t3 }

/-- `parseNaturalLanguage` from the source: `none` exactly when no
entity type, no category filter, no status filter and no comparison
was extracted. -/
def parseNaturalLanguage (query : String) : Option ParsedQuery :=
  let parsed := parseBase query
  if !strOptTruthy parsed.entityType && parsed.categoryFilters.isEmpty &&
      parsed.statusFilters.isEmpty && parsed.comparisons.isEmpty then
    none
  else
    some (addWarningsTips parsed)

/-! ## Query execution pipeline (`src/lib/queryEngine.ts`) -/

/-- `THREAT_ORDER[value]` lookup. -/
def threatOrder (s : String) : Option Nat :=
  (THREAT_ORDER.find? (fun p => p.1 = s)).map (·.2)

/-- `compareValues` from the source. -/
def compareValues (lhs : Option AttrVal) (rhs : NumOrStr)
    (operator : String) : Bool :=
  match lhs with
  | none => false
  | some lv =>
      match rhs with
      | .num r =>
          let lhsNumber := match lv with
            | .aNum q => some q
            | _ => jsToNumber lv
          match lhsNumber with
          | none => false
          | some ln =>
              if operator = ">" then ln > r
              else if operator = ">=" then ln ≥ r
              else if operator = "<" then ln < r
              else if operator = "<=" then ln ≤ r
              else if operator = "=" then ln = r
              else if operator = "!=" then ln ≠ r
              else false
      | .str rs =>
          let lhsString := jsToLower (jsToString lv)
          let rhsString := jsToLower rs
          if lhsString = rhsString ∧ operator = "=" then true
          else if operator = "!=" then lhsString ≠ rhsString
          else
            match threatOrder lhsString, threatOrder rhsString with
            | some lt, some rt =>
                if operator = ">" then lt > rt
                else if operator = ">=" then lt ≥ rt
                else if operator = "<" then lt < rt
                else if operator = "<=" then lt ≤ rt
                else false
            | _, _ =>
                if operator = ">" then jsStrLt rhsString lhsString
                else if operator = ">=" then !jsStrLt lhsString rhsString
                else if operator = "<" then jsStrLt lhsString rhsString
                else if operator = "<=" then !jsStrLt rhsString lhsString
                else if operator = "=" then lhsString = rhsString
                else false

/-- `checkComparisons` from the source: the attribute is looked up
under its exact, upper-cased and lower-cased name (`??` chain), and
every comparison must hold. -/
def checkComparisons (node : GraphNode) (comparisons : List ComparisonFilter) :
    Bool :=
  comparisons.all (fun comparison =>
    let value := firstSome
      [getAttr node.attributes comparison.attr,
       getAttr node.attributes (jsToUpper comparison.attr),
       getAttr node.attributes (jsToLower comparison.attr)]
    compareValues value comparison.value comparison.operator)

/-- `getNodeTimestamp` from the source: the first truthy, parseable
candidate among last-seen, timestamp, updated-at and created-at. -/
def getNodeTimestamp (node : GraphNode) : Option Int :=
  let candidates : List (Option AttrVal) :=
    [getAttr node.attributes "last_seen",
     getAttr node.attributes "timestamp",
     some (.aStr node.updated_at),
     some (.aStr node.created_at)]
  candidates.foldl
    (fun acc candidate =>
      match acc with
      | some t => some t
      | none =>
          match candidate with
          | none => none
          | some v =>
              if !truthyVal v then none
              else parseDate (jsToString v))
    none

/-- `extractNodeCoordinates` from the source. -/
def extractNodeCoordinates (node : GraphNode) : Option (Rat × Rat) :=
  match getAttr node.attributes "coordinates" with
  | some (.aNumList (a :: b :: _)) => some (a, b)
  | some (.aStrList (a :: b :: _)) =>
      match jsStrToNumber a, jsStrToNumber b with
      | some lat, some lon => some (lat, lon)
      | _, _ => none
  | some (.aStr s) =>
      match execFirst (rCat [.grp 1 signedNumRe, .star rWs, rChar ',',
          .star rWs, .grp 2 signedNumRe]) s with
      | some (_, g) =>
          match jsStrToNumber (commaToDot ((capStr g 1).getD "")),
              jsStrToNumber (commaToDot ((capStr g 2).getD "")) with
          | some lat, some lon => some (lat, lon)
          | _, _ => none
      | none => none
  | _ => none

/-- Stable insertion into a sorted list (`le y x` keeps `y` before
`x`). -/
def stableInsert (le : α → α → Bool) (x : α) : List α → List α
  | [] => [x]
  | y :: ys => if le y x then y :: stableInsert le x ys else x :: y :: ys

/-- Stable sort (JS `Array.prototype.sort` is stable; for the total
preorders the comparator induces this is the sort's unique result). -/
def stableSort (le : α → α → Bool) : List α → List α
  | [] => []
  | x :: xs => stableInsert le x (stableSort le xs)

/-- Best-available timestamp of a node for ordering
(`Date.parse(last_seen || timestamp || updated_at || created_at)`). -/
def preferredTime (node : GraphNode) : Option Int :=
  parseDate (jsToString (jsOrChain
    [getAttr node.attributes "last_seen", getAttr node.attributes "timestamp",
     some (.aStr node.updated_at)]
    (.aStr node.created_at)))

/-- `takeWithPreferredOrder` from the source: when over the limit, sort
by descending best timestamp (a `NaN` difference counts as equal, as in
`Array.prototype.sort`) and take the prefix. -/
def takeWithPreferredOrder (nodes : List GraphNode) (limit : Nat) :
    List GraphNode :=
  if nodes.length ≤ limit then nodes
  else
    let le := fun (a b : GraphNode) =>
      match preferredTime a, preferredTime b with
      | some ta, some tb => tb - ta ≤ 0
      | _, _ => true
    (stableSort le nodes).take limit

/-- The cutoff instant of the relative time window:
`cutoffTime.setHours(cutoffTime.getHours() - hours)` on the reference
instant, with `getHours`/`setHours` modelled in UTC and the fractional
hour count truncated as JS `setHours` does. -/
def timeWindowCutoff (hours : Rat) : Int :=
  dateMs 2024 5 12 0 0 0 0 + ratTrunc (10 - hours) * 3600000

/-- The attribute-filter chain of `executeNaturalLanguageQuery`
(source lines 141–219), applied in source order to the
access-filtered nodes: sector codes, classification level, relative
time window, absolute time range, statuses, categories, geo radius,
comparisons, and the result limit. -/
def applyQueryFilters (env : Env) (pq : ParsedQuery)
    (accessibleNodes : List GraphNode) : List GraphNode :=
  let f1 :=
    if !pq.sectorFilters.isEmpty then
      let sectorSet := pq.sectorFilters.map jsToUpper
      accessibleNodes.filter (fun node =>
        let candidate := jsToUpper (jsToString (jsOrChain
          [getAttr node.attributes "sector",
           (getAttr node.attributes "sectors").bind (fun v =>
             match v with
             | .aStrList xs => xs.head?.map .aStr
             | .aNumList xs => xs.head?.map .aNum
             | .aStr s => s.toList.head?.map (fun c => .aStr (String.mk [c]))
             | .aNum _ => none)]
          (.aStr "")))
        !candidate.isEmpty && sectorSet.contains candidate)
    else accessibleNodes
  let f2 :=
    match pq.levelFilter with
    | some lv =>
        if !lv.isEmpty then f1.filter (fun node => node.classification_level = lv)
        else f1
    | none => f1
  let f3 :=
    match pq.timeWindowHours with
    | some h =>
        if h ≠ 0 ∧ h > 0 then
          let cutoff := timeWindowCutoff h
          f2.filter (fun node =>
            match jsOrChainOpt
                [getAttr node.attributes "last_seen",
                 getAttr node.attributes "timestamp",
                 some (.aStr node.updated_at)] with
            | none => false
            | some v =>
                match jsNewDate v with
                | some t => t ≥ cutoff
                | none => false)
        else f2
    | none => f2
  let f4 :=
    match pq.timeRange with
    | some tr =>
        f3.filter (fun node =>
          match getNodeTimestamp node with
          | none => false
          | some ts => tr.start ≤ ts ∧ ts ≤ tr.stop)
    | none => f3
  let f5 :=
    if !pq.statusFilters.isEmpty then
      f4.filter (fun node =>
        let status := jsToLower (jsToString (jsOrChain
          [getAttr node.attributes "status",
           getAttr node.attributes "operational"]
          (.aStr "")))
        if status.isEmpty then false
        else pq.statusFilters.any (fun value => status = value))
    else f4
  let f6 :=
    if !pq.categoryFilters.isEmpty then
      f5.filter (fun node =>
        let category := normalizeCategory (jsToString (jsOrChain
          [getAttr node.attributes "category",
           getAttr node.attributes "type"]
          (.aStr "")))
        match category with
        | none => false
        | some c =>
            if c.isEmpty then false
            else pq.categoryFilters.any (fun value => c = value))
    else f5
  let f7 :=
    match pq.geoFilter with
    | some geo =>
        f6.filter (fun node =>
          match extractNodeCoordinates node with
          | none => false
          | some (lat, lon) =>
              env.distKm geo.lat geo.lon lat lon ≤ geo.radiusKm)
    | none => f6
  let f8 :=
    if !pq.comparisons.isEmpty then
      f7.filter (fun node => checkComparisons node pq.comparisons)
    else f7
  match pq.limit with
  | some l => if l > 0 then takeWithPreferredOrder f8 l else f8
  | none => f8

/-- Entity-type restriction (`parsedQuery.entityType ? filter : all`). -/
def selectByEntity (pq : ParsedQuery) (allNodes : List GraphNode) :
    List GraphNode :=
  match pq.entityType with
  | some t =>
      if t.isEmpty then allNodes
      else allNodes.filter (fun node => node.entity_type = t)
  | none => allNodes

/-- The final filtered node set of the pipeline for a parsed query:
fetch all nodes, restrict to the entity type, apply the access filter,
then the attribute-filter chain. -/
def pipelineFilteredNodes (env : Env) (st : Store) (user : User)
    (pq : ParsedQuery) : List GraphNode :=
  applyQueryFilters env pq
    (filterAccessibleNodes user (selectByEntity pq st.nodes))

/-- `QueryExplanation` from the source. -/
structure QueryExplanation where
  raw : String
  entity : Option String
  filters : List String
  comparisons : List String
  timeWindow : Option String
  timeRange : Option String
  geo : Option String
  limit : Option Nat
  tips : List String
  warnings : List String
  intent : Intent
  logic : LogicOp
  recognized : List (String × String)
deriving DecidableEq, Repr

/-- The `data` payload of a query result: a node list or the
k-anonymity aggregate. -/
inductive QueryData where
  | items (nodes : List GraphNode)
  | aggregate (count : Nat) (message : String)
deriving DecidableEq, Repr

/-- `QueryResult` from the source (optional fields are `Option`). -/
structure QueryResult where
  success : Bool
  data : Option QueryData
  aggregated : Option Bool
  error : Option String
  denialReason : Option String
  explanation : Option QueryExplanation
deriving DecidableEq, Repr

/-- Deduplicate preserving first occurrences (`Array.from(new Set(l))`). -/
def dedupPreserve (l : List String) : List String :=
  l.foldl insertUnique []

/-- `Number.prototype.toFixed(3)` (round half away from zero). -/
def toFixed3 (q : Rat) : String :=
  let scaled := q * 1000
  let rounded : Int :=
    if scaled ≥ 0 then (scaled + 1 / 2).floor else -(((-scaled) + 1 / 2).floor)
  let sign := if rounded < 0 then "-" else ""
  sign ++ toString (rounded.natAbs / 1000) ++ "." ++ natPad 3 (rounded.natAbs % 1000)

/-- `buildExplanation` from the source; the locale-dependent
`toLocaleTimeString` rendering comes from the environment. -/
def buildExplanation (env : Env) (parsed : ParsedQuery) (rawQuery : String) :
    QueryExplanation :=
  let filters :=
    (if !parsed.sectorFilters.isEmpty then
      ["Секторы: " ++ String.intercalate ", " parsed.sectorFilters]
    else []) ++
    (match parsed.levelFilter with
      | some lv => if !lv.isEmpty then ["Уровень допуска: " ++ lv] else []
      | none => []) ++
    (if !parsed.categoryFilters.isEmpty then
      ["Категории: " ++ String.intercalate ", " (parsed.categoryFilters.map jsToUpper)]
    else []) ++
    (if !parsed.statusFilters.isEmpty then
      ["Статусы: " ++ String.intercalate ", " parsed.statusFilters]
    else [])
  { raw := rawQuery
    entity := parsed.entityLabel
    filters := filters
    comparisons := parsed.comparisons.map (·.display)
    timeWindow := parsed.timeWindowRaw
    timeRange := parsed.timeRange.map (fun tr =>
      env.localeTime tr.start ++ " — " ++ env.localeTime tr.stop)
    geo := parsed.geoFilter.map (fun g =>
      "Координаты " ++ toFixed3 g.lat ++ ", " ++ toFixed3 g.lon ++ " ± " ++
        ratToString g.radiusKm ++ " км")
    limit := parsed.limit
    tips := dedupPreserve parsed.tips
    warnings := parsed.warnings
    intent := parsed.intent
    logic := parsed.logicOperator
    recognized := parsed.recognized }

/-- `logAuditEntry` from the source: a thin wrapper over
`insertAuditLog`. -/
def logAuditEntry (env : Env) (now : Int) (st : Store) (user : User)
    (queryText queryType : String) (resultCount : Nat) (granted : Bool)
    (denialReason : Option String) : Store :=
  insertAuditLog env now st user.id queryText queryType resultCount granted
    denialReason

/-- `executeNaturalLanguageQuery` from the source, as a function of the
environment, the current time, the store, the caller's user object and
the query text; returns the result, the (locally mutated) user object
and the updated store. -/
def executeNaturalLanguageQuery (env : Env) (now : Int) (st : Store)
    (user : User) (queryText : String) : QueryResult × User × Store :=
  if !checkQueryBudget user then
    let st' := logAuditEntry env now st user queryText "NL_QUERY" 0 false
      (some "BUDGET_EXHAUSTED")
    ({ success := false, data := none, aggregated := none,
       error := some "Исчерпан бюджет запросов. Подождите восстановления.",
       denialReason := some "Бюджет исчерпан", explanation := none },
      user, st')
  else
    match parseNaturalLanguage queryText with
    | none =>
        ({ success := false, data := none, aggregated := none,
           error := some "Не удалось распознать запрос",
           denialReason := none,
           explanation := some
             { raw := queryText, entity := none, filters := [], comparisons := [],
               timeWindow := none, timeRange := none, geo := none, limit := none,
               tips :=
                 ["Укажите объект интереса (например, «беспилотники», «сенсоры», «события»).",
                  "Добавьте контекст: сектор, статус, временной интервал."],
               warnings := [], intent := .list, logic := .AND, recognized := [] } },
          user, st)
    | some parsedQuery =>
        let filteredNodes := pipelineFilteredNodes env st user parsedQuery
        let st1 := decrementBudget now st user.id
        let user1 :=
          if user.query_budget > 0 then
            { user with query_budget := user.query_budget - 1 }
          else user
        if filteredNodes.length = 0 then
          let st2 := logAuditEntry env now st1 user queryText "NL_QUERY" 0 true none
          ({ success := true, data := some (.items []), aggregated := some false,
             error := none, denialReason := none,
             explanation := some (buildExplanation env parsedQuery queryText) },
            user1, st2)
        else if !checkKAnonymity filteredNodes.length 2 then
          let st2 := logAuditEntry env now st1 user queryText "NL_QUERY"
            filteredNodes.length true (some "K_ANONYMITY")
          ({ success := true,
             data := some (.aggregate filteredNodes.length
               "Выборка слишком мала для раскрытия деталей (защита k-анонимностью)"),
             aggregated := some true, error := none,
             denialReason := some "K_ANONYMITY",
             explanation := some (buildExplanation env parsedQuery queryText) },
            user1, st2)
        else
          let st2 := logAuditEntry env now st1 user queryText "NL_QUERY"
            filteredNodes.length true none
          ({ success := true, data := some (.items filteredNodes),
             aggregated := none, error := none, denialReason := none,
             explanation := some (buildExplanation env parsedQuery queryText) },
            user1, st2)

/-! ## Graph view reconciler (`getGraphData`) -/

/-- Insertion-ordered map update (JS `Map.set`): an existing key keeps
its position, a new key is appended. -/
def mapSet (m : List (String × α)) (k : String) (v : α) :
    List (String × α) :=
  match m with
  | [] => [(k, v)]
  | (k', v') :: rest => if k' = k then (k, v) :: rest else (k', v') :: mapSet rest k v

/-- JS `Map.get` (keys are unique in every map the program builds). -/
def mapGet : List (String × α) → String → Option α
  | [], _ => none
  | (k1, v1) :: rest, k => if k1 = k then some v1 else mapGet rest k

/-- JS `Map.values()` in insertion order. -/
def mapValues (m : List (String × α)) : List α := m.map (·.2)

/-- `new Map(entries)`: insert in order, later duplicates overwrite. -/
def buildMap (entries : List (String × α)) : List (String × α) :=
  entries.foldl (fun m p => mapSet m p.1 p.2) []

/-- The requested view mode. -/
inductive ViewMode where
  | virtual
  | level
  | overlay
deriving DecidableEq, Repr

/-- `GraphDataOptions` from the source. -/
structure GraphDataOptions where
  mode : ViewMode
  level : Option String
  overlayLevels : Option (List String)
deriving DecidableEq, Repr

/-- `LEVEL_SEQUENCE` from the source. -/
def LEVEL_SEQUENCE : List String := ["UNCLASSIFIED", "CONFIDENTIAL", "SECRET"]

/-- Fallback target level of level mode
(`accessibleLevels[accessibleLevels.length - 1] || accessibleLevels[0]
|| 'UNCLASSIFIED'`; level names are nonempty, so `||` is just
presence). -/
def levelFallback (ls : List String) : String :=
  match ls.getLast? with
  | some l => l
  | none =>
      match ls.head? with
      | some h => h
      | none => "UNCLASSIFIED"

/-- One step of the virtual-mode per-logical-id reduction: keep the
incumbent unless the new node's classification rank is strictly
higher. -/
def nodeChoiceStep (m : List (String × GraphNode)) (node : GraphNode) :
    List (String × GraphNode) :=
  match mapGet m node.logical_id with
  | none => mapSet m node.logical_id node
  | some current =>
      if clearanceRank node.classification_level >
          clearanceRank current.classification_level then
        mapSet m node.logical_id node
      else m

/-- One step of the virtual-mode edge re-pointing: resolve the edge's
original endpoints, re-point them to the chosen best nodes, and
deduplicate by logical id (or a synthesized key), keeping the higher
classification rank. -/
def virtualEdgeStep (nodeById logicalToNode : List (String × GraphNode))
    (em : List (String × GraphEdge)) (edge : GraphEdge) :
    List (String × GraphEdge) :=
  match mapGet nodeById edge.source_node_id,
      mapGet nodeById edge.target_node_id with
  | some sourceOriginal, some targetOriginal =>
      match mapGet logicalToNode sourceOriginal.logical_id,
          mapGet logicalToNode targetOriginal.logical_id with
      | some bestSource, some bestTarget =>
          let key :=
            if edge.logical_id.isEmpty then
              bestSource.logical_id ++ "::" ++ bestTarget.logical_id ++ "::" ++
                edge.relation_type
            else edge.logical_id
          let candidate :=
            { edge with
              source_node_id := bestSource.id
              target_node_id := bestTarget.id }
          match mapGet em key with
          | none => mapSet em key candidate
          | some existing =>
              if clearanceRank candidate.classification_level >
                  clearanceRank existing.classification_level then
                mapSet em key candidate
              else em
      | _, _ => em
  | _, _ => em

/-- `getGraphData` from the source: the three view projections over the
access-filtered node and edge sets. -/
def getGraphData (st : Store) (user : User) (options : GraphDataOptions) :
    List GraphNode × List GraphEdge :=
  let allNodes := st.nodes
  let allEdges := st.edges
  let accessibleNodes := filterAccessibleNodes user allNodes
  let nodeById := buildMap (allNodes.map (fun n => (n.id, n)))
  let accessibleEdges := filterAccessibleEdges user allEdges
  let userMaxRank := clearanceRank user.clearance_level
  let accessibleLevels :=
    LEVEL_SEQUENCE.filter (fun level => clearanceRank level ≤ userMaxRank)
  match options.mode with
  | .level =>
      let targetLevel :=
        match options.level with
        | some lv =>
            if !lv.isEmpty ∧ accessibleLevels.contains lv then lv
            else levelFallback accessibleLevels
        | none => levelFallback accessibleLevels
      let nodes := accessibleNodes.filter
        (fun n => n.classification_level = targetLevel)
      let nodeIds := nodes.map (·.id)
      let edges := accessibleEdges.filter (fun e =>
        e.classification_level = targetLevel ∧
          nodeIds.contains e.source_node_id ∧ nodeIds.contains e.target_node_id)
      (nodes, edges)
  | .overlay =>
      let requestedLevels :=
        match options.overlayLevels with
        | some ls =>
            if ls.length > 0 then
              ls.filter (fun l => accessibleLevels.contains l)
            else []
        | none => []
      let effectiveLevels :=
        if requestedLevels.length > 0 then requestedLevels else accessibleLevels
      let nodes := accessibleNodes.filter
        (fun n => effectiveLevels.contains n.classification_level)
      let nodeIds := nodes.map (·.id)
      let edges := accessibleEdges.filter (fun e =>
        effectiveLevels.contains e.classification_level ∧
          nodeIds.contains e.source_node_id ∧ nodeIds.contains e.target_node_id)
      (nodes, edges)
  | .virtual =>
      let nodeChoice := accessibleNodes.foldl nodeChoiceStep []
      let nodes := mapValues nodeChoice
      let logicalToNode := nodes.foldl (fun m n => mapSet m n.logical_id n) []
      let edgesMap :=
        accessibleEdges.foldl (virtualEdgeStep nodeById logicalToNode) []
      (nodes, mapValues edgesMap)

/-! ## Level export / import (`dataStore.ts`) -/

/-- JS `a || b` on strings (empty is falsy). -/
def jsOrStr (a b : String) : String := if a.isEmpty then b else a

/-- `normalizeLevel` from `dataStore.ts`. -/
def normalizeLevel (level : String) : String :=
  let upper := jsToUpper level
  if upper = "SECRET" ∨ upper = "S" ∨ upper = "H" then "SECRET"
  else if upper = "CONFIDENTIAL" ∨ upper = "C" ∨ upper = "M" then "CONFIDENTIAL"
  else "UNCLASSIFIED"

/-- `buildNodeId` from `dataStore.ts`. -/
def buildNodeId (logicalId level : String) : String :=
  logicalId ++ "_" ++ level

/-- Lower-case ASCII alphanumeric (the class kept by `slugify`). -/
def isLowerAlnum (c : Char) : Bool :=
  ('a' ≤ c ∧ c ≤ 'z') ∨ c.isDigit

/-- Collapse consecutive underscores (the flag records whether the
previous kept character was an underscore). -/
def collapseUnderscores : Bool → List Char → List Char
  | _, [] => []
  | prev, c :: rest =>
      if c = '_' then
        if prev then collapseUnderscores true rest
        else c :: collapseUnderscores true rest
      else c :: collapseUnderscores false rest

/-- `slugify` from `dataStore.ts`: lower-case, replace non-alphanumeric
runs by underscores, trim and collapse underscores, with `'node'` as
the fallback for an empty result.  (Per-character replacement followed
by the collapse step yields the same result as the source's
per-run replacement.) -/
def slugify (value : String) : String :=
  let mapped := (jsToLower value).toList.map
    (fun c => if isLowerAlnum c then c else '_')
  let trimmed :=
    ((mapped.dropWhile (fun c => c = '_')).reverse.dropWhile
      (fun c => c = '_')).reverse
  let collapsed := collapseUnderscores false trimmed
  if collapsed.isEmpty then "node" else String.mk collapsed

/-- An entity object of a level-export payload.  The payload is
loosely-typed JSON in the source; absent string fields are modelled as
`""`, which is how every read (`||` coalescing) treats them. -/
structure PayloadEntity where
  logical_id : String
  entity_type : String
  name : String
  classification : String
  attributes : Attrs
  created_at : String
  updated_at : String
deriving DecidableEq, Repr

/-- A relationship object of a level-export payload. -/
structure PayloadRel where
  logical_id : String
  source_id : String
  target_id : String
  relation_type : String
  classification : String
  attributes : Attrs
  created_at : String
deriving DecidableEq, Repr

/-- `exportLevelData` from `dataStore.ts`: entities for the level's
nodes and relationships for the level's edges, with edge endpoints
re-keyed to logical ids through the level's node-id map (falling back
to the raw node id). -/
def exportLevelData (st : Store) (level : String) :
    List PayloadEntity × List PayloadRel :=
  let classification := normalizeLevel level
  let levelNodes := st.nodes.filter
    (fun n => n.classification_level = classification)
  let nodeIdMap := buildMap (levelNodes.map (fun n => (n.id, n.logical_id)))
  let entities := levelNodes.map (fun n =>
    { logical_id := n.logical_id
      entity_type := n.entity_type
      name := n.name
      classification := n.classification_level
      attributes := n.attributes
      created_at := ""
      updated_at := "" : PayloadEntity })
  let relationships := (st.edges.filter
      (fun e => e.classification_level = classification)).map (fun e =>
    { logical_id := e.logical_id
      source_id := jsOrStr ((mapGet nodeIdMap e.source_node_id).getD "")
        e.source_node_id
      target_id := jsOrStr ((mapGet nodeIdMap e.target_node_id).getD "")
        e.target_node_id
      relation_type := e.relation_type
      classification := e.classification_level
      attributes := e.attributes
      created_at := "" : PayloadRel })
  (entities, relationships)

/-- The entity pass of `importLevelData`: builds the logical-id map and
the new nodes, threading the `Math.random` draw index. -/
def importEntityStep (env : Env) (classification nowIso : String)
    (acc : List (String × String) × List GraphNode × Nat)
    (entity : PayloadEntity) : List (String × String) × List GraphNode × Nat :=
  let m := acc.1
  let ns := acc.2.1
  let ri := acc.2.2
  let drawn :=
    if entity.logical_id.isEmpty then
      (slugify (jsOrStr entity.name "entity") ++ "_" ++ env.fresh ri, ri + 1)
    else (entity.logical_id, ri)
  let logicalId := drawn.1
  let nodeId := buildNodeId logicalId classification
  let node : GraphNode :=
    { id := nodeId
      logical_id := logicalId
      classification_level := classification
      entity_type := jsOrStr entity.entity_type "Unknown"
      name := jsOrStr entity.name logicalId
      attributes := entity.attributes
      created_at := jsOrStr entity.created_at nowIso
      updated_at := jsOrStr entity.updated_at nowIso }
  (mapSet m logicalId nodeId, ns ++ [node], drawn.2)

/-- The relationship pass of `importLevelData`: drop relationships
whose endpoints were not imported. -/
def importRelStep (env : Env) (classification nowIso : String)
    (logicalToId : List (String × String))
    (acc : List GraphEdge × Nat) (relationship : PayloadRel) :
    List GraphEdge × Nat :=
  let es := acc.1
  let ri := acc.2
  let drawn :=
    if relationship.logical_id.isEmpty then
      (slugify (jsOrStr relationship.relation_type "relation") ++ "_" ++
        env.fresh ri, ri + 1)
    else (relationship.logical_id, ri)
  let logicalId := drawn.1
  let sourceId := mapGet logicalToId relationship.source_id
  let targetId := mapGet logicalToId relationship.target_id
  match sourceId, targetId with
  | some src, some tgt =>
      if src.isEmpty ∨ tgt.isEmpty then (es, drawn.2)
      else
        let edge : GraphEdge :=
          { id := buildNodeId logicalId classification
            logical_id := logicalId
            classification_level := classification
            source_node_id := src
            target_node_id := tgt
            relation_type := jsOrStr relationship.relation_type "RELATED_TO"
            attributes := relationship.attributes
            created_at := jsOrStr relationship.created_at nowIso }
        (es ++ [edge], drawn.2)
  | _, _ => (es, drawn.2)

/-- `importLevelData` from `dataStore.ts`: clear the level, then add
one node per payload entity and one edge per payload relationship whose
re-keyed endpoints resolve. -/
def importLevelData (env : Env) (now : Int) (st : Store) (level : String)
    (payload : List PayloadEntity × List PayloadRel) : Store :=
  let classification := normalizeLevel level
  let keptNodes := st.nodes.filter
    (fun n => n.classification_level ≠ classification)
  let keptEdges := st.edges.filter
    (fun e => e.classification_level ≠ classification)
  let nowIso := jsToISOString now
  let entAcc := payload.1.foldl (importEntityStep env classification nowIso)
    ([], [], st.rngIdx)
  let relAcc := payload.2.foldl
    (importRelStep env classification nowIso entAcc.1) ([], entAcc.2.2)
  { st with
    nodes := keptNodes ++ entAcc.2.1
    edges := keptEdges ++ relAcc.1
    rngIdx := relAcc.2 }

/-! ## Concrete witness data -/

/-- A CONFIDENTIAL user with an exhausted budget. -/
def c4User : User :=
  { id := "u-c4", username := "c4", clearance_level := "CONFIDENTIAL",
    attributes := [("sector", .aStr "A")], query_budget := 0,
    budget_reset_at := "2099-01-01T00:00:00.000Z" }

/-- A store holding only the exhausted user. -/
def c4Store : Store :=
  { users := [c4User], nodes := [], edges := [], audit := [], rngIdx := 0 }

/-- A SECRET analyst of sector A with budget available. -/
def c3User : User :=
  { id := "u-c3", username := "c3", clearance_level := "SECRET",
    attributes := [("sector", .aStr "A")], query_budget := 5,
    budget_reset_at := "2099-01-01T00:00:00.000Z" }

/-- A single SECRET target node in sector A. -/
def c3Node : GraphNode :=
  { id := "t1_SECRET", logical_id := "t1", classification_level := "SECRET",
    entity_type := "Target", name := "T1",
    attributes := [("sector", .aStr "A")],
    created_at := "2024-05-12T10:00:00Z", updated_at := "2024-05-12T10:00:00Z" }

/-- A store with exactly one matching target node. -/
def c3Store : Store :=
  { users := [c3User], nodes := [c3Node], edges := [], audit := [], rngIdx := 0 }

/-- The parsed form of the witness query "цель". -/
def c3pq : ParsedQuery :=
  match parseNaturalLanguage "цель" with
  | some pq => pq
  | none => parseBase "цель"

/-- A second copy of the target at CONFIDENTIAL level, for the
virtual-view witness. -/
def c7NodeLow : GraphNode :=
  { id := "t1_CONFIDENTIAL", logical_id := "t1",
    classification_level := "CONFIDENTIAL", entity_type := "Target",
    name := "T1 (low)", attributes := [("sector", .aStr "A")],
    created_at := "2024-05-12T10:00:00Z", updated_at := "2024-05-12T10:00:00Z" }

/-- An edge between the two instances' level-homes, for the
referential-closure witness (self-loop at SECRET). -/
def c10Edge : GraphEdge :=
  { id := "e1_SECRET", logical_id := "e1", classification_level := "SECRET",
    source_node_id := "t1_SECRET", target_node_id := "t1_SECRET",
    relation_type := "LINKS", attributes := [],
    created_at := "2024-05-12T10:00:00Z" }

/-- Store for the reconciler witnesses: both node instances and the
SECRET self-loop. -/
def c7Store : Store :=
  { users := [c3User], nodes := [c3Node, c7NodeLow], edges := [c10Edge],
    audit := [], rngIdx := 0 }

/-- Virtual-mode options. -/
def virtualOptions : GraphDataOptions :=
  { mode := .virtual, level := none, overlayLevels := none }

/-- A SECRET node whose edge crosses to a CONFIDENTIAL node (as in the
repository's seed data, e.g. `rel_command_1_SECRET`). -/
def c9NodeA : GraphNode :=
  { id := "a_SECRET", logical_id := "a", classification_level := "SECRET",
    entity_type := "CommandPost", name := "a", attributes := [],
    created_at := "2024-05-12T10:00:00Z", updated_at := "2024-05-12T10:00:00Z" }

/-- The CONFIDENTIAL endpoint of the cross-level edge. -/
def c9NodeB : GraphNode :=
  { id := "b_CONFIDENTIAL", logical_id := "b",
    classification_level := "CONFIDENTIAL", entity_type := "Sensor",
    name := "b", attributes := [],
    created_at := "2024-05-12T10:00:00Z", updated_at := "2024-05-12T10:00:00Z" }

/-- A SECRET edge whose target lives at CONFIDENTIAL. -/
def c9Edge : GraphEdge :=
  { id := "e_SECRET", logical_id := "e", classification_level := "SECRET",
    source_node_id := "a_SECRET", target_node_id := "b_CONFIDENTIAL",
    relation_type := "COMMANDS", attributes := [],
    created_at := "2024-05-12T10:00:00Z" }

/-- Source store with a cross-level edge at SECRET. -/
def c9SrcStore : Store :=
  { users := [], nodes := [c9NodeA, c9NodeB], edges := [c9Edge], audit := [],
    rngIdx := 0 }

/-- An entirely empty store. -/
def emptyStore : Store :=
  { users := [], nodes := [], edges := [], audit := [], rngIdx := 0 }

/-- A CONFIDENTIAL self-loop edge on the CONFIDENTIAL node. -/
def c9GoodEdge : GraphEdge :=
  { id := "l1_CONFIDENTIAL", logical_id := "l1",
    classification_level := "CONFIDENTIAL",
    source_node_id := "t1_CONFIDENTIAL", target_node_id := "t1_CONFIDENTIAL",
    relation_type := "SELF", attributes := [],
    created_at := "2024-05-12T10:00:00Z" }

/-- Store for the round-trip witness: one CONFIDENTIAL node with a
same-level self-loop. -/
def c9GoodStore : Store :=
  { users := [], nodes := [c7NodeLow], edges := [c9GoodEdge],
    audit := [], rngIdx := 0 }

/-- The node built by the import's entity pass when no id synthesis is
needed (the payload entity carries a nonempty logical id). -/
def importEntityFn (classification nowIso : String) (entity : PayloadEntity) :
    GraphNode :=
  { id := buildNodeId entity.logical_id classification
    logical_id := entity.logical_id
    classification_level := classification
    entity_type := jsOrStr entity.entity_type "Unknown"
    name := jsOrStr entity.name entity.logical_id
    attributes := entity.attributes
    created_at := jsOrStr entity.created_at nowIso
    updated_at := jsOrStr entity.updated_at nowIso }

/-- The edge (if any) built by the import's relationship pass when no
id synthesis is needed. -/
def importRelFn (classification nowIso : String)
    (logicalToId : List (String × String)) (relationship : PayloadRel) :
    Option GraphEdge :=
  match mapGet logicalToId relationship.source_id,
      mapGet logicalToId relationship.target_id with
  | some src, some tgt =>
      if src.isEmpty ∨ tgt.isEmpty then none
      else
        some
          { id := buildNodeId relationship.logical_id classification
            logical_id := relationship.logical_id
            classification_level := classification
            source_node_id := src
            target_node_id := tgt
            relation_type := jsOrStr relationship.relation_type "RELATED_TO"
            attributes := relationship.attributes
            created_at := jsOrStr relationship.created_at nowIso }
  | _, _ => none

/-- Invariant of the virtual-mode per-logical-id fold: the choice map
has duplicate-free keys, each binding holds a processed node carrying
its key as logical id with maximal classification rank among the
processed nodes of that logical id, and every processed node's logical
id is a key. -/
def nodeChoiceInv (processed : List GraphNode)
    (m : List (String × GraphNode)) : Prop :=
  (m.map (·.1)).Nodup ∧
    (∀ p ∈ m, p.2.logical_id = p.1 ∧ p.2 ∈ processed ∧
      ∀ u ∈ processed, u.logical_id = p.1 →
        clearanceRank u.classification_level ≤
          clearanceRank p.2.classification_level) ∧
    (∀ u ∈ processed, u.logical_id ∈ m.map (·.1))

/-! # Theorems settling the claims -/

/-- Counterexample to claim C1 as stated: for a non-commander user with
no sector attribute and a sector-less node of adequate clearance, the
claim's predicate says the node is included, but
`filterAccessibleNodes` excludes it (the code denies users that carry
no sector attribute). -/
theorem c1_counterexample :
    nodeAccessSpecC1 c1User c1Node = true ∧
      filterAccessibleNodes c1User [c1Node] = [] := by
  constructor <;> rfl

/-- Claim C1, amended: `filterAccessibleNodes` includes a node iff it
was in the input list and the user has sufficient clearance rank AND
(the user's role is "commander", or the user carries a sector attribute
and the node either carries none or carries the user's sector). -/
theorem c1_filter_accessible_nodes_amended (user : User)
    (nodes : List GraphNode) (node : GraphNode) :
    node ∈ filterAccessibleNodes user nodes ↔
      node ∈ nodes ∧ nodeAccessAmendedC1 user node = true := by
  have hb : ∀ n : GraphNode,
      (if !checkClearance user.clearance_level n.classification_level then false
        else checkSectorAccess user n.attributes) = nodeAccessAmendedC1 user n := by
    intro n
    have hr : specRank = clearanceRank := rfl
    unfold checkClearance nodeAccessAmendedC1 checkSectorAccess
    rw [hr]
    by_cases hclr : clearanceRank user.clearance_level ≥
        clearanceRank n.classification_level
    · by_cases hrole : getAttr user.attributes "role" = some (.aStr "commander")
      · simp [hclr, hrole]
      · by_cases husec : truthy (getAttr user.attributes "sector") = true
        · by_cases hdsec : truthy (getAttr n.attributes "sector") = true
          · simp [hclr, hrole, husec, hdsec]
          · simp [hclr, hrole, husec, hdsec]
        · simp [hclr, hrole, husec]
    · simp [hclr]
  simp only [filterAccessibleNodes, List.mem_filter, hb]

/-- Claim C2: `checkSectorAccess` implements exactly the cascade the
claim describes, for every user and every node-or-edge attribute map. -/
theorem c2_check_sector_access (user : User) (data : Attrs) :
    checkSectorAccess user data = sectorAllowedSpec user data := by
  unfold checkSectorAccess sectorAllowedSpec
  by_cases hrole : getAttr user.attributes "role" = some (.aStr "commander")
  · simp [hrole]
  · by_cases husec : truthy (getAttr user.attributes "sector")
    · by_cases hdsec : truthy (getAttr data "sector") <;>
        simp [hrole, husec, hdsec]
    · simp [hrole, husec]

/-- Claim C6: when the current time has reached `budget_reset_at`, the
read resets `query_budget` to the clearance-dependent maximum
(SECRET→20, CONFIDENTIAL→8, otherwise→5) and sets `budget_reset_at` to
exactly one hour after `now`; before that time both fields are left
unchanged. -/
theorem c6_budget_reset (now : Int) (user : User) (t : Int)
    (h : parseDate user.budget_reset_at = some t) :
    (t ≤ now →
      maybeResetBudget now user =
        { user with
          query_budget := getMaxBudget user.clearance_level
          budget_reset_at := jsToISOString (now + 60 * 60 * 1000) }) ∧
    (now < t → maybeResetBudget now user = user) ∧
    getMaxBudget "SECRET" = 20 ∧ getMaxBudget "CONFIDENTIAL" = 8 ∧
    (∀ level, level ≠ "SECRET" → level ≠ "CONFIDENTIAL" →
      getMaxBudget level = 5) := by
  refine ⟨?_, ?_, rfl, rfl, ?_⟩
  · intro hle
    unfold maybeResetBudget
    rw [h]
    simp [hle]
  · intro hlt
    unfold maybeResetBudget
    rw [h]
    simp [not_le.mpr hlt]
  · intro level h1 h2
    unfold getMaxBudget
    split
    · simp_all
    · simp_all
    · rfl

/-- Witness for claim C6 at a concrete user and time; the stored reset
time after the reset parses back to exactly one hour past `now`. -/
theorem c6_budget_reset_witness :
    parseDate c6User.budget_reset_at = some 1715504400000 ∧
      maybeResetBudget 1715504400000 c6User =
        { c6User with
          query_budget := 20
          budget_reset_at := jsToISOString (1715504400000 + 60 * 60 * 1000) } ∧
      parseDate (maybeResetBudget 1715504400000 c6User).budget_reset_at =
        some (1715504400000 + 60 * 60 * 1000) :=
  ⟨by decide,
    (c6_budget_reset 1715504400000 c6User 1715504400000 (by decide)).1 le_rfl,
    by decide⟩

/-- `decrementBudget` never touches the audit log. -/
theorem decrementBudget_audit (now : Int) (st : Store) (id : String) :
    (decrementBudget now st id).audit = st.audit := by
  unfold decrementBudget
  cases st.users.find? (fun u => u.id = id) <;> rfl

/-- `decrementBudget` never touches the random-draw index. -/
theorem decrementBudget_rngIdx (now : Int) (st : Store) (id : String) :
    (decrementBudget now st id).rngIdx = st.rngIdx := by
  unfold decrementBudget
  cases st.users.find? (fun u => u.id = id) <;> rfl

/-- Claim C8: the AND/OR logic-operator flag of a parsed query has no
effect on the pipeline's filtered node set — two parsed queries
identical except for that flag filter identically (the flag only feeds
the explanation/warning text). -/
theorem c8_logic_operator_never_filters (env : Env) (st : Store) (user : User)
    (pq : ParsedQuery) (op : LogicOp) :
    pipelineFilteredNodes env st user { pq with logicOperator := op } =
      pipelineFilteredNodes env st user pq := by
  cases pq
  rfl

/-- Claim C4: with no budget left (`query_budget ≤ 0`), a query is
denied before parsing: the audit log gains an entry with
`result_count = 0`, `granted = false` and reason `BUDGET_EXHAUSTED`, a
denial result is returned, and the stored users (in particular the
stored `query_budget`) are untouched. -/
theorem c4_budget_exhausted (env : Env) (now : Int) (st : Store) (user : User)
    (q : String) (hb : ¬user.query_budget > 0) :
    executeNaturalLanguageQuery env now st user q =
      ({ success := false, data := none, aggregated := none,
         error := some "Исчерпан бюджет запросов. Подождите восстановления.",
         denialReason := some "Бюджет исчерпан", explanation := none },
        user,
        { st with
          audit :=
            { id := "audit-" ++ env.fresh st.rngIdx, user_id := user.id,
              query_text := q, query_type := "NL_QUERY", result_count := 0,
              access_granted := false,
              denial_reason := some "BUDGET_EXHAUSTED",
              created_at := jsToISOString now } :: st.audit
          rngIdx := st.rngIdx + 1 }) ∧
      (executeNaturalLanguageQuery env now st user q).2.2.users = st.users := by
  have hcb : checkQueryBudget user = false := by
    unfold checkQueryBudget
    simpa using hb
  constructor
  · unfold executeNaturalLanguageQuery
    rw [hcb]
    rfl
  · unfold executeNaturalLanguageQuery
    rw [hcb]
    rfl

/-- Witness for claim C4 at a concrete exhausted user. -/
theorem c4_budget_exhausted_witness :
    ¬c4User.query_budget > 0 ∧
      (executeNaturalLanguageQuery trivEnv 0 c4Store c4User "цель").2.2.users =
        c4Store.users ∧
      (executeNaturalLanguageQuery trivEnv 0 c4Store c4User "цель").1.success =
        false := by
  have hb : ¬c4User.query_budget > 0 := by decide
  have h := c4_budget_exhausted trivEnv 0 c4Store c4User "цель" hb
  exact ⟨hb, h.2, by rw [h.1]⟩

/-- Claim C5: parsing is unrecognized exactly when no entity type, no
category filter, no status filter and no comparison was extracted; on
that path the pipeline returns the fixed non-error "could not
understand" result with the two static guidance tips, and the store —
audit log and user budgets included — is completely untouched. -/
theorem c5_unrecognized_query :
    (∀ q : String,
      (parseNaturalLanguage q = none ↔
        (!strOptTruthy (parseBase q).entityType &&
          (parseBase q).categoryFilters.isEmpty &&
          (parseBase q).statusFilters.isEmpty &&
          (parseBase q).comparisons.isEmpty) = true)) ∧
    (∀ (env : Env) (now : Int) (st : Store) (user : User) (q : String),
      checkQueryBudget user = true → parseNaturalLanguage q = none →
      executeNaturalLanguageQuery env now st user q =
        ({ success := false, data := none, aggregated := none,
           error := some "Не удалось распознать запрос",
           denialReason := none,
           explanation := some
             { raw := q, entity := none, filters := [], comparisons := [],
               timeWindow := none, timeRange := none, geo := none, limit := none,
               tips :=
                 ["Укажите объект интереса (например, «беспилотники», «сенсоры», «события»).",
                  "Добавьте контекст: сектор, статус, временной интервал."],
               warnings := [], intent := .list, logic := .AND, recognized := [] } },
          user, st)) := by
  constructor
  · intro q
    unfold parseNaturalLanguage
    by_cases h : (!strOptTruthy (parseBase q).entityType &&
        (parseBase q).categoryFilters.isEmpty &&
        (parseBase q).statusFilters.isEmpty &&
        (parseBase q).comparisons.isEmpty) = true
    · simp [h]
    · simp [h]
  · intro env now st user q hb hp
    unfold executeNaturalLanguageQuery
    rw [hb, hp]
    rfl

/-- Witness for claim C5 at the concrete query «привет». -/
theorem c5_unrecognized_query_witness :
    checkQueryBudget c3User = true ∧
      parseNaturalLanguage "привет" = none ∧
      (executeNaturalLanguageQuery trivEnv 0 c3Store c3User "привет").2.2 =
        c3Store ∧
      (executeNaturalLanguageQuery trivEnv 0 c3Store c3User "привет").1.error =
        some "Не удалось распознать запрос" := by
  have hb : checkQueryBudget c3User = true := by decide
  have hp : parseNaturalLanguage "привет" = none := by decide
  have h := c5_unrecognized_query.2 trivEnv 0 c3Store c3User "привет" hb hp
  exact ⟨hb, hp, by rw [h], by rw [h]⟩

/-- Claim C3: when the final filtered result set has size N with
0 < N < 2 (that is, N = 1), the pipeline returns success carrying only
the aggregate `count`/`message` payload with denial reason
`K_ANONYMITY`, and audits `granted = true` with the true count; for
N ≥ 2 (the boundary N = 2 already discloses) it returns the full
filtered node list. -/
theorem c3_k_anonymity_gate (env : Env) (now : Int) (st : Store) (user : User)
    (q : String) (pq : ParsedQuery)
    (hb : checkQueryBudget user = true)
    (hp : parseNaturalLanguage q = some pq) :
    ((pipelineFilteredNodes env st user pq).length = 1 →
      (executeNaturalLanguageQuery env now st user q).1 =
        { success := true,
          data := some (.aggregate 1
            "Выборка слишком мала для раскрытия деталей (защита k-анонимностью)"),
          aggregated := some true, error := none,
          denialReason := some "K_ANONYMITY",
          explanation := some (buildExplanation env pq q) } ∧
      (executeNaturalLanguageQuery env now st user q).2.2.audit =
        { id := "audit-" ++ env.fresh st.rngIdx, user_id := user.id,
          query_text := q, query_type := "NL_QUERY", result_count := 1,
          access_granted := true, denial_reason := some "K_ANONYMITY",
          created_at := jsToISOString now } :: st.audit) ∧
    (2 ≤ (pipelineFilteredNodes env st user pq).length →
      (executeNaturalLanguageQuery env now st user q).1 =
        { success := true,
          data := some (.items (pipelineFilteredNodes env st user pq)),
          aggregated := none, error := none, denialReason := none,
          explanation := some (buildExplanation env pq q) } ∧
      (executeNaturalLanguageQuery env now st user q).2.2.audit =
        { id := "audit-" ++ env.fresh st.rngIdx, user_id := user.id,
          query_text := q, query_type := "NL_QUERY",
          result_count := (pipelineFilteredNodes env st user pq).length,
          access_granted := true, denial_reason := none,
          created_at := jsToISOString now } :: st.audit) := by
  constructor
  · intro h1
    unfold executeNaturalLanguageQuery
    rw [hb, hp]
    simp only [Bool.not_true, Bool.false_eq_true, if_false, h1,
      checkKAnonymity, logAuditEntry, insertAuditLog,
      decrementBudget_audit, decrementBudget_rngIdx]
    constructor
    · rfl
    · rfl
  · intro h2
    have hne : (pipelineFilteredNodes env st user pq).length ≠ 0 := by omega
    have hk : checkKAnonymity (pipelineFilteredNodes env st user pq).length 2
        = true := by
      unfold checkKAnonymity
      simpa using h2
    unfold executeNaturalLanguageQuery
    rw [hb, hp]
    simp only [Bool.not_true, Bool.false_eq_true, if_false, hne, hk,
      logAuditEntry, insertAuditLog, decrementBudget_audit,
      decrementBudget_rngIdx, if_true, Bool.not_true]
    constructor <;> trivial

/-- Witness for claim C3: the query «цель» over a store holding exactly
one accessible matching node yields the aggregated k-anonymity answer. -/
theorem c3_k_anonymity_gate_witness :
    checkQueryBudget c3User = true ∧
      parseNaturalLanguage "цель" = some c3pq ∧
      (pipelineFilteredNodes trivEnv c3Store c3User c3pq).length = 1 ∧
      (executeNaturalLanguageQuery trivEnv 0 c3Store c3User "цель").1.data =
        some (.aggregate 1
          "Выборка слишком мала для раскрытия деталей (защита k-анонимностью)") ∧
      (executeNaturalLanguageQuery trivEnv 0 c3Store c3User "цель").1.denialReason =
        some "K_ANONYMITY" := by
  have hb : checkQueryBudget c3User = true := by decide
  have hp : parseNaturalLanguage "цель" = some c3pq := by rfl
  have h1 : (pipelineFilteredNodes trivEnv c3Store c3User c3pq).length = 1 := by
    decide
  have h := (c3_k_anonymity_gate trivEnv 0 c3Store c3User "цель" c3pq hb hp).1 h1
  exact ⟨hb, hp, h1, by rw [h.1], by rw [h.1]⟩

/-- Membership after a `mapSet`: either the new binding or an old
entry. -/
theorem mapSet_mem_weak {α : Type} (m : List (String × α)) (k : String)
    (v : α) : ∀ p ∈ mapSet m k v, p = (k, v) ∨ p ∈ m := by
  induction m with
  | nil =>
      intro p hp
      simp only [mapSet, List.mem_singleton] at hp
      exact Or.inl hp
  | cons hd tl ih =>
      obtain ⟨k1, v1⟩ := hd
      intro p hp
      by_cases hk : k1 = k
      · simp only [mapSet, hk, if_true, List.mem_cons] at hp
        rcases hp with hp | hp
        · exact Or.inl hp
        · exact Or.inr (List.mem_cons_of_mem _ hp)
      · simp only [mapSet, hk, if_false, List.mem_cons] at hp
        rcases hp with hp | hp
        · exact Or.inr (by simp [hp])
        · rcases ih p hp with h | h
          · exact Or.inl h
          · exact Or.inr (List.mem_cons_of_mem _ h)

/-- Membership after a `mapSet` on a duplicate-free map: the new
binding, or an old entry under a different key. -/
theorem mapSet_mem_nodup {α : Type} (m : List (String × α)) (k : String)
    (v : α) (hnd : (m.map (·.1)).Nodup) :
    ∀ p ∈ mapSet m k v, p = (k, v) ∨ (p ∈ m ∧ p.1 ≠ k) := by
  induction m with
  | nil =>
      intro p hp
      simp only [mapSet, List.mem_singleton] at hp
      exact Or.inl hp
  | cons hd tl ih =>
      obtain ⟨k1, v1⟩ := hd
      simp only [List.map_cons, List.nodup_cons] at hnd
      intro p hp
      by_cases hk : k1 = k
      · subst hk
        simp only [mapSet, if_true] at hp
        rcases List.mem_cons.mp hp with hp | hp
        · exact Or.inl hp
        · refine Or.inr ⟨List.mem_cons_of_mem _ hp, ?_⟩
          intro hpk
          exact hnd.1 (by
            rw [← hpk]
            exact List.mem_map_of_mem _ hp)
      · simp only [mapSet, hk, if_false] at hp
        rcases List.mem_cons.mp hp with hp | hp
        · subst hp
          exact Or.inr ⟨List.mem_cons_self _ _, hk⟩
        · rcases ih hnd.2 p hp with h | h
          · exact Or.inl h
          · exact Or.inr ⟨List.mem_cons_of_mem _ h.1, h.2⟩

/-- Keys after a `mapSet`: unchanged for an existing key, appended for
a new one. -/
theorem mapSet_keys {α : Type} (m : List (String × α)) (k : String) (v : α) :
    (mapSet m k v).map (·.1) =
      if k ∈ m.map (·.1) then m.map (·.1) else m.map (·.1) ++ [k] := by
  induction m with
  | nil => simp [mapSet]
  | cons hd tl ih =>
      obtain ⟨k1, v1⟩ := hd
      by_cases hk : k1 = k
      · subst hk
        simp [mapSet]
      · simp only [mapSet, hk, if_false, List.map_cons, ih]
        by_cases hmem : k ∈ tl.map (·.1)
        · simp [hmem, Ne.symm hk]
        · simp [hmem, Ne.symm hk]

/-- `mapGet` after `mapSet`. -/
theorem mapGet_mapSet {α : Type} (m : List (String × α)) (k : String)
    (v : α) (k2 : String) :
    mapGet (mapSet m k v) k2 = if k2 = k then some v else mapGet m k2 := by
  induction m with
  | nil =>
      by_cases h : k2 = k <;> simp [mapSet, mapGet, h, Ne.symm]
  | cons hd tl ih =>
      obtain ⟨k1, v1⟩ := hd
      by_cases hk : k1 = k
      · subst hk
        by_cases h2 : k2 = k1 <;> simp [mapSet, mapGet, h2, Ne.symm]
      · by_cases h2 : k2 = k1
        · subst h2
          have : ¬k2 = k := fun h => hk (h ▸ rfl)
          simp [mapSet, mapGet, hk, this]
        · simp [mapSet, mapGet, hk, Ne.symm h2, ih,
            fun h : k2 = k1 => h2 h]

/-- A successful `mapGet` corresponds to a present binding. -/
theorem mapGet_mem {α : Type} (m : List (String × α)) (k : String) (v : α)
    (h : mapGet m k = some v) : (k, v) ∈ m := by
  induction m with
  | nil => exact absurd h (by simp [mapGet])
  | cons hd tl ih =>
      obtain ⟨k1, v1⟩ := hd
      by_cases hk : k1 = k
      · subst hk
        simp only [mapGet, if_true] at h
        simp [← Option.some_inj.mp h]
      · simp only [mapGet, hk, if_false] at h
        exact List.mem_cons_of_mem _ (ih h)

/-- `mapGet` misses exactly the absent keys. -/
theorem mapGet_none_iff {α : Type} (m : List (String × α)) (k : String) :
    mapGet m k = none ↔ k ∉ m.map (·.1) := by
  induction m with
  | nil => simp [mapGet]
  | cons hd tl ih =>
      obtain ⟨k1, v1⟩ := hd
      by_cases hk : k1 = k
      · subst hk
        simp [mapGet]
      · simp [mapGet, hk, ih, Ne.symm hk]

/-- On a duplicate-free map, every binding is what `mapGet` returns. -/
theorem mapGet_of_mem_nodup {α : Type} (m : List (String × α)) (k : String)
    (v : α) (hnd : (m.map (·.1)).Nodup) (hmem : (k, v) ∈ m) :
    mapGet m k = some v := by
  induction m with
  | nil => exact absurd hmem (by simp)
  | cons hd tl ih =>
      obtain ⟨k1, v1⟩ := hd
      simp only [List.map_cons, List.nodup_cons] at hnd
      rcases List.mem_cons.mp hmem with hmem | hmem
      · have hk : k1 = k := (Prod.ext_iff.mp hmem).1.symm
        have hv : v1 = v := (Prod.ext_iff.mp hmem).2.symm
        simp [mapGet, hk, hv]
      · by_cases hk : k1 = k
        · subst hk
          exact absurd (List.mem_map_of_mem (·.1) hmem) hnd.1
        · simp only [mapGet, hk, if_false]
          exact ih hnd.2 hmem

/-- On a duplicate-free map whose values carry their key as
`logical_id`, filtering the values by a logical id yields exactly the
map's binding for that id. -/
theorem mapValues_filter_key (m : List (String × GraphNode)) (lid : String)
    (hnd : (m.map (·.1)).Nodup) (hkey : ∀ p ∈ m, p.2.logical_id = p.1) :
    (mapValues m).filter (fun n => n.logical_id = lid) =
      (match mapGet m lid with
        | some v => [v]
        | none => ([] : List GraphNode)) := by
  induction m with
  | nil => simp [mapValues, mapGet]
  | cons hd tl ih =>
      obtain ⟨k1, v1⟩ := hd
      simp only [List.map_cons, List.nodup_cons] at hnd
      have hv1 : v1.logical_id = k1 := hkey (k1, v1) (List.mem_cons_self _ _)
      have ih' := ih hnd.2 (fun p hp => hkey p (List.mem_cons_of_mem _ hp))
      by_cases hk : k1 = lid
      · subst hk
        have hall : ∀ p ∈ tl, ¬p.2.logical_id = k1 := by
          intro p hp hcon
          have hpk := hkey p (List.mem_cons_of_mem _ hp)
          rw [hpk] at hcon
          exact hnd.1 (hcon ▸ List.mem_map_of_mem (·.1) hp)
        have hrest : (mapValues tl).filter
            (fun n => n.logical_id = k1) = [] := by
          rw [List.filter_eq_nil_iff]
          intro a ha
          obtain ⟨p, hp, hpa⟩ := List.mem_map.mp ha
          simpa [hpa] using hall p hp
        simp only [mapValues, List.map_cons] at hrest ⊢
        simp [mapGet, hv1, hrest]
      · have hne : ¬v1.logical_id = lid := by rw [hv1]; exact hk
        simp only [mapValues, List.map_cons] at ih' ⊢
        simp only [mapGet, hk, if_false]
        rw [List.filter_cons_of_neg (by simpa using hne)]
        exact ih'

/-- One `nodeChoiceStep` preserves the virtual-mode fold invariant. -/
theorem nodeChoiceStep_inv (processed : List GraphNode)
    (m : List (String × GraphNode)) (x : GraphNode)
    (h : nodeChoiceInv processed m) :
    nodeChoiceInv (processed ++ [x]) (nodeChoiceStep m x) := by
  obtain ⟨hnd, hent, hcov⟩ := h
  unfold nodeChoiceStep
  cases hget : mapGet m x.logical_id with
  | none =>
      have hnotmem : x.logical_id ∉ m.map (·.1) :=
        (mapGet_none_iff m x.logical_id).mp hget
      refine ⟨?_, ?_, ?_⟩
      · rw [mapSet_keys]
        simp only [hnotmem, if_false]
        simp [List.nodup_append, hnd, hnotmem]
      · intro p hp
        rcases mapSet_mem_nodup m x.logical_id x hnd p hp with hp' | ⟨hpm, hpk⟩
        · subst hp'
          refine ⟨rfl, List.mem_append_right _ (List.mem_singleton.mpr rfl), ?_⟩
          intro u hu hulid
          rcases List.mem_append.mp hu with hu | hu
          · have := hcov u hu
            rw [hulid] at this
            exact absurd this hnotmem
          · have hux := List.mem_singleton.mp hu
            subst hux
            exact le_refl _
        · obtain ⟨hk1, hmem1, hmax1⟩ := hent p hpm
          refine ⟨hk1, List.mem_append_left _ hmem1, ?_⟩
          intro u hu hulid
          rcases List.mem_append.mp hu with hu | hu
          · exact hmax1 u hu hulid
          · have hux := List.mem_singleton.mp hu
            subst hux
            exact absurd hulid.symm hpk
      · intro u hu
        rw [mapSet_keys]
        simp only [hnotmem, if_false]
        rcases List.mem_append.mp hu with hu | hu
        · exact List.mem_append_left _ (hcov u hu)
        · have hux := List.mem_singleton.mp hu
          subst hux
          exact List.mem_append_right _ (List.mem_singleton.mpr rfl)
  | some cur =>
      have hcurmem : (x.logical_id, cur) ∈ m := mapGet_mem _ _ _ hget
      have hkmem : x.logical_id ∈ m.map (·.1) := by
        simpa using List.mem_map_of_mem (·.1) hcurmem
      obtain ⟨hcurk, hcurmemP, hcurmax⟩ := hent _ hcurmem
      by_cases hrank : clearanceRank x.classification_level >
          clearanceRank cur.classification_level
      · simp only [hrank, if_true]
        refine ⟨?_, ?_, ?_⟩
        · rw [mapSet_keys]
          simp only [hkmem, if_true]
          exact hnd
        · intro p hp
          rcases mapSet_mem_nodup m x.logical_id x hnd p hp with hp' | ⟨hpm, hpk⟩
          · subst hp'
            refine ⟨rfl, List.mem_append_right _ (List.mem_singleton.mpr rfl), ?_⟩
            intro u hu hulid
            rcases List.mem_append.mp hu with hu | hu
            · exact le_trans (hcurmax u hu hulid) (le_of_lt hrank)
            · have hux := List.mem_singleton.mp hu
              subst hux
              exact le_refl _
          · obtain ⟨hk1, hmem1, hmax1⟩ := hent p hpm
            refine ⟨hk1, List.mem_append_left _ hmem1, ?_⟩
            intro u hu hulid
            rcases List.mem_append.mp hu with hu | hu
            · exact hmax1 u hu hulid
            · have hux := List.mem_singleton.mp hu
              subst hux
              exact absurd hulid.symm hpk
        · intro u hu
          rw [mapSet_keys]
          simp only [hkmem, if_true]
          rcases List.mem_append.mp hu with hu | hu
          · exact hcov u hu
          · have hux := List.mem_singleton.mp hu
            subst hux
            exact hkmem
      · simp only [hrank, if_false]
        refine ⟨hnd, ?_, ?_⟩
        · intro p hp
          obtain ⟨hk1, hmem1, hmax1⟩ := hent p hp
          refine ⟨hk1, List.mem_append_left _ hmem1, ?_⟩
          intro u hu hulid
          rcases List.mem_append.mp hu with hu | hu
          · exact hmax1 u hu hulid
          · have hux := List.mem_singleton.mp hu
            subst hux
            have hpg : mapGet m p.1 = some cur := by
              rw [← hulid]
              exact hget
            have hpg2 : mapGet m p.1 = some p.2 :=
              mapGet_of_mem_nodup m p.1 p.2 hnd (by simpa using hp)
            have hpc : p.2 = cur := by
              rw [hpg2] at hpg
              exact Option.some_inj.mp hpg
            rw [hpc]
            exact not_lt.mp hrank
        · intro u hu
          rcases List.mem_append.mp hu with hu | hu
          · exact hcov u hu
          · have hux := List.mem_singleton.mp hu
            subst hux
            exact hkmem

/-- The virtual-mode fold maintains its invariant over a whole list. -/
theorem nodeChoice_foldl_inv (l : List GraphNode) :
    ∀ (processed : List GraphNode) (m : List (String × GraphNode)),
      nodeChoiceInv processed m →
      nodeChoiceInv (processed ++ l) (l.foldl nodeChoiceStep m) := by
  induction l with
  | nil =>
      intro processed m h
      simpa using h
  | cons x xs ih =>
      intro processed m h
      have hstep := nodeChoiceStep_inv processed m x h
      have hrec := ih (processed ++ [x]) (nodeChoiceStep m x) hstep
      simpa [List.append_assoc] using hrec

/-- Claim C7: in virtual view mode, every logical id occurring among
the user's accessible nodes is represented by exactly one returned
node, that node is an accessible node of that logical id with maximal
classification rank among them, and nothing else is returned. -/
theorem c7_virtual_mode_reconciliation (st : Store) (user : User)
    (lvl : Option String) (ov : Option (List String)) (lid : String)
    (hocc : ∃ n ∈ filterAccessibleNodes user st.nodes, n.logical_id = lid) :
    (∃ best,
      ((getGraphData st user
          { mode := .virtual, level := lvl, overlayLevels := ov }).1.filter
        (fun n => n.logical_id = lid)) = [best] ∧
      best ∈ filterAccessibleNodes user st.nodes ∧ best.logical_id = lid ∧
      ∀ u ∈ filterAccessibleNodes user st.nodes, u.logical_id = lid →
        clearanceRank u.classification_level ≤
          clearanceRank best.classification_level) ∧
    (∀ n ∈ (getGraphData st user
        { mode := .virtual, level := lvl, overlayLevels := ov }).1,
      n ∈ filterAccessibleNodes user st.nodes) := by
  have hinv := nodeChoice_foldl_inv (filterAccessibleNodes user st.nodes) [] []
    ⟨by simp, by simp, by simp⟩
  rw [List.nil_append] at hinv
  obtain ⟨hnd, hent, hcov⟩ := hinv
  have hnodes : (getGraphData st user
      { mode := .virtual, level := lvl, overlayLevels := ov }).1 =
      mapValues ((filterAccessibleNodes user st.nodes).foldl nodeChoiceStep []) :=
    rfl
  constructor
  · obtain ⟨n0, hn0, hn0lid⟩ := hocc
    have hkey : lid ∈
        (((filterAccessibleNodes user st.nodes).foldl nodeChoiceStep []).map
          (·.1)) := by
      rw [← hn0lid]
      exact hcov n0 hn0
    cases hget : mapGet
        ((filterAccessibleNodes user st.nodes).foldl nodeChoiceStep []) lid with
    | none => exact absurd hkey ((mapGet_none_iff _ _).mp hget)
    | some best =>
        have hbmem := mapGet_mem _ _ _ hget
        obtain ⟨hbk, hbmemP, hbmax⟩ := hent _ hbmem
        refine ⟨best, ?_, hbmemP, hbk, hbmax⟩
        rw [hnodes,
          mapValues_filter_key _ lid hnd (fun p hp => (hent p hp).1), hget]
  · intro n hn
    rw [hnodes] at hn
    obtain ⟨p, hp, hpn⟩ := List.mem_map.mp hn
    rw [← hpn]
    exact (hent p hp).2.1

/-- Witness for claim C7: with both a SECRET and a CONFIDENTIAL
instance of logical id "t1" accessible, the virtual view returns
exactly the SECRET one. -/
theorem c7_virtual_mode_reconciliation_witness :
    (∃ n ∈ filterAccessibleNodes c3User c7Store.nodes, n.logical_id = "t1") ∧
      ((getGraphData c7Store c3User virtualOptions).1.filter
        (fun n => n.logical_id = "t1")) = [c3Node] := by
  have hocc : ∃ n ∈ filterAccessibleNodes c3User c7Store.nodes,
      n.logical_id = "t1" := ⟨c3Node, by decide, rfl⟩
  have h := c7_virtual_mode_reconciliation c7Store c3User none none "t1" hocc
  obtain ⟨⟨best, hfilter, _, _, _⟩, _⟩ := h
  have hconc : ((getGraphData c7Store c3User virtualOptions).1.filter
      (fun n => n.logical_id = "t1")) = [c3Node] := by decide
  have hlist : [best] = [c3Node] := hfilter.symm.trans hconc
  have hbest : best = c3Node := by simpa using hlist
  exact ⟨hocc, by rw [← hbest]; exact hfilter⟩

/-- Values of a keyed `mapSet` fold satisfy any predicate the inserted
values and the initial values satisfy. -/
theorem foldl_mapSet_values {α β : Type} (f : α → String) (g : α → β)
    (P : β → Prop) (l : List α) (hl : ∀ x ∈ l, P (g x)) :
    ∀ m0 : List (String × β), (∀ p ∈ m0, P p.2) →
      ∀ p ∈ l.foldl (fun m x => mapSet m (f x) (g x)) m0, P p.2 := by
  induction l with
  | nil =>
      intro m0 h0 p hp
      exact h0 p hp
  | cons x xs ih =>
      intro m0 h0 p hp
      refine ih (fun y hy => hl y (List.mem_cons_of_mem _ hy)) _ ?_ p hp
      intro q hq
      rcases mapSet_mem_weak m0 (f x) (g x) q hq with hq' | hq'
      · rw [hq']
        exact hl x (List.mem_cons_self _ _)
      · exact h0 q hq'

/-- Values of the virtual-mode edge fold keep both endpoints among the
chosen nodes' ids, provided the logical-to-node map's values do. -/
theorem virtualEdge_foldl_values (nodeById logicalToNode :
      List (String × GraphNode)) (nodesOut : List GraphNode)
    (hLT : ∀ p ∈ logicalToNode, p.2 ∈ nodesOut) (edges : List GraphEdge) :
    ∀ em0 : List (String × GraphEdge),
      (∀ p ∈ em0,
        (∃ n ∈ nodesOut, n.id = p.2.source_node_id) ∧
        (∃ n ∈ nodesOut, n.id = p.2.target_node_id)) →
      ∀ p ∈ edges.foldl (virtualEdgeStep nodeById logicalToNode) em0,
        (∃ n ∈ nodesOut, n.id = p.2.source_node_id) ∧
        (∃ n ∈ nodesOut, n.id = p.2.target_node_id) := by
  induction edges with
  | nil =>
      intro em0 h0 p hp
      exact h0 p hp
  | cons e es ih =>
      intro em0 h0 p hp
      refine ih _ ?_ p hp
      intro q hq
      unfold virtualEdgeStep at hq
      split at hq
      case h_2 => exact h0 q hq
      rename_i so to2 hs ht
      split at hq
      case h_2 => exact h0 q hq
      rename_i bestSource bestTarget hbs hbt
      have hsrc : bestSource ∈ nodesOut := hLT _ (mapGet_mem _ _ _ hbs)
      have htgt : bestTarget ∈ nodesOut := hLT _ (mapGet_mem _ _ _ hbt)
      simp only [] at hq
      split at hq
      · rcases mapSet_mem_weak _ _ _ q hq with hq2 | hq2
        · rw [hq2]
          exact ⟨⟨bestSource, hsrc, rfl⟩, ⟨bestTarget, htgt, rfl⟩⟩
        · exact h0 q hq2
      · split at hq
        · rcases mapSet_mem_weak _ _ _ q hq with hq2 | hq2
          · rw [hq2]
            exact ⟨⟨bestSource, hsrc, rfl⟩, ⟨bestTarget, htgt, rfl⟩⟩
          · exact h0 q hq2
        · exact h0 q hq

/-- Edges filtered on membership of both endpoint ids in a node list
are referentially closed over that list. -/
theorem filter_closure_helper (nodes : List GraphNode)
    (edges : List GraphEdge) (P : GraphEdge → Prop) [DecidablePred P] :
    ∀ e ∈ edges.filter (fun ed => P ed ∧
        (nodes.map (·.id)).contains ed.source_node_id ∧
        (nodes.map (·.id)).contains ed.target_node_id),
      (∃ n ∈ nodes, n.id = e.source_node_id) ∧
      (∃ n ∈ nodes, n.id = e.target_node_id) := by
  intro e he
  have hm := List.mem_filter.mp he
  have hcond := of_decide_eq_true hm.2
  obtain ⟨hP, hc1, hc2⟩ := hcond
  constructor
  · obtain ⟨n, hn, hid⟩ := List.mem_map.mp (List.mem_of_elem_eq_true hc1)
    exact ⟨n, hn, hid⟩
  · obtain ⟨n, hn, hid⟩ := List.mem_map.mp (List.mem_of_elem_eq_true hc2)
    exact ⟨n, hn, hid⟩

/-- Claim C10: in every view mode, each returned edge's source and
target node ids belong to some node returned by the same call — the
view is referentially closed. -/
theorem c10_referential_closure (st : Store) (user : User)
    (options : GraphDataOptions) :
    ∀ e ∈ (getGraphData st user options).2,
      (∃ n ∈ (getGraphData st user options).1, n.id = e.source_node_id) ∧
      (∃ n ∈ (getGraphData st user options).1, n.id = e.target_node_id) := by
  obtain ⟨mode, lvl, ov⟩ := options
  cases mode with
  | level =>
      exact fun e he => filter_closure_helper _ _ _ e he
  | overlay =>
      exact fun e he => filter_closure_helper _ _ _ e he
  | virtual =>
      intro e he
      obtain ⟨p, hp, hpe⟩ := List.mem_map.mp he
      have hLT : ∀ q ∈ (mapValues
            ((filterAccessibleNodes user st.nodes).foldl nodeChoiceStep
              [])).foldl (fun m n => mapSet m n.logical_id n) [],
          q.2 ∈ mapValues
            ((filterAccessibleNodes user st.nodes).foldl nodeChoiceStep []) :=
        foldl_mapSet_values (fun n => n.logical_id) (fun n => n)
          (fun n => n ∈ mapValues
            ((filterAccessibleNodes user st.nodes).foldl nodeChoiceStep []))
          _ (fun x hx => hx) [] (by simp)
      have hres := virtualEdge_foldl_values
        (buildMap (st.nodes.map (fun n => (n.id, n))))
        ((mapValues ((filterAccessibleNodes user st.nodes).foldl nodeChoiceStep
          [])).foldl (fun m n => mapSet m n.logical_id n) [])
        (mapValues ((filterAccessibleNodes user st.nodes).foldl nodeChoiceStep []))
        hLT (filterAccessibleEdges user st.edges) [] (by simp) p hp
      rw [← hpe]
      exact hres

/-- Witness for claim C10: the virtual view of the two-instance store
returns the SECRET self-loop, whose endpoints are the returned node. -/
theorem c10_referential_closure_witness :
    (getGraphData c7Store c3User virtualOptions).2 = [c10Edge] ∧
      (∃ n ∈ (getGraphData c7Store c3User virtualOptions).1,
        n.id = c10Edge.source_node_id) ∧
      (∃ n ∈ (getGraphData c7Store c3User virtualOptions).1,
        n.id = c10Edge.target_node_id) := by
  have h1 : (getGraphData c7Store c3User virtualOptions).2 = [c10Edge] := by
    decide
  have hmem : c10Edge ∈ (getGraphData c7Store c3User virtualOptions).2 := by
    rw [h1]
    exact List.mem_singleton.mpr rfl
  have h := c10_referential_closure c7Store c3User virtualOptions c10Edge hmem
  exact ⟨h1, h.1, h.2⟩

/-- With nonempty logical ids, the import's entity pass draws no random
ids: it extends the logical-id map keyed by each entity's logical id,
appends `importEntityFn` nodes in order and leaves the draw index
alone. -/
theorem importEntities_no_draw (env : Env) (classification nowIso : String)
    (es : List PayloadEntity) (h : ∀ e ∈ es, ¬e.logical_id.isEmpty) :
    ∀ (m0 : List (String × String)) (ns0 : List GraphNode) (ri0 : Nat),
      es.foldl (importEntityStep env classification nowIso) (m0, ns0, ri0) =
        (es.foldl (fun m e =>
            mapSet m e.logical_id (buildNodeId e.logical_id classification)) m0,
          ns0 ++ es.map (importEntityFn classification nowIso), ri0) := by
  induction es with
  | nil =>
      intro m0 ns0 ri0
      simp
  | cons e es ih =>
      intro m0 ns0 ri0
      have hne : e.logical_id.isEmpty = false := by
        simpa using h e (List.mem_cons_self _ _)
      have hstep : importEntityStep env classification nowIso (m0, ns0, ri0) e =
          (mapSet m0 e.logical_id (buildNodeId e.logical_id classification),
            ns0 ++ [importEntityFn classification nowIso e], ri0) := by
        unfold importEntityStep importEntityFn
        simp [hne]
      simp only [List.foldl_cons, hstep]
      rw [ih (fun x hx => h x (List.mem_cons_of_mem _ hx))]
      simp

/-- With nonempty logical ids, the import's relationship pass draws no
random ids: it appends exactly the edges `importRelFn` keeps. -/
theorem importRels_no_draw (env : Env) (classification nowIso : String)
    (logicalToId : List (String × String)) (rs : List PayloadRel)
    (h : ∀ r ∈ rs, ¬r.logical_id.isEmpty) :
    ∀ (es0 : List GraphEdge) (ri0 : Nat),
      rs.foldl (importRelStep env classification nowIso logicalToId)
          (es0, ri0) =
        (es0 ++ rs.filterMap (importRelFn classification nowIso logicalToId),
          ri0) := by
  induction rs with
  | nil =>
      intro es0 ri0
      simp
  | cons r rs ih =>
      intro es0 ri0
      have hne : r.logical_id.isEmpty = false := by
        simpa using h r (List.mem_cons_self _ _)
      have hstep : importRelStep env classification nowIso logicalToId
          (es0, ri0) r =
          (es0 ++ (importRelFn classification nowIso logicalToId r).toList,
            ri0) := by
        unfold importRelStep importRelFn
        cases hs : mapGet logicalToId r.source_id with
        | none => simp [hne, hs]
        | some src =>
            cases ht : mapGet logicalToId r.target_id with
            | none => simp [hne, hs, ht]
            | some tgt =>
                by_cases hemp : src.isEmpty ∨ tgt.isEmpty
                · simp [hne, hs, ht, hemp]
                · simp [hne, hs, ht, hemp]
      simp only [List.foldl_cons, hstep]
      rw [ih (fun x hx => h x (List.mem_cons_of_mem _ hx))]
      cases hfn : importRelFn classification nowIso logicalToId r <;>
        simp [hfn]

/-- Lookup in a fold that binds every key to a value determined by the
key alone. -/
theorem mapGet_foldl_keyed (f : String → String) (keys : List String) :
    ∀ (m0 : List (String × String)) (k : String),
      mapGet (keys.foldl (fun m kk => mapSet m kk (f kk)) m0) k =
        if keys.contains k then some (f k) else mapGet m0 k := by
  induction keys with
  | nil =>
      intro m0 k
      simp
  | cons k1 keys ih =>
      intro m0 k
      simp only [List.foldl_cons, ih, mapGet_mapSet]
      by_cases hmem : k ∈ keys
      · simp [hmem]
      · by_cases hk : k = k1
        · subst hk
          simp [hmem]
        · simp [hmem, hk, List.contains_cons, Ne.symm]

/-- Every binding of a keyed `mapSet` fold is either an inserted pair
or an initial one. -/
theorem foldl_mapSet_pairs {α β : Type} (f : α → String) (g : α → β)
    (Q : String × β → Prop) (l : List α) (hl : ∀ x ∈ l, Q (f x, g x)) :
    ∀ m0 : List (String × β), (∀ p ∈ m0, Q p) →
      ∀ p ∈ l.foldl (fun m x => mapSet m (f x) (g x)) m0, Q p := by
  induction l with
  | nil =>
      intro m0 h0 p hp
      exact h0 p hp
  | cons x xs ih =>
      intro m0 h0 p hp
      refine ih (fun y hy => hl y (List.mem_cons_of_mem _ hy)) _ ?_ p hp
      intro q hq
      rcases mapSet_mem_weak m0 (f x) (g x) q hq with hq' | hq'
      · rw [hq']
        exact hl x (List.mem_cons_self _ _)
      · exact h0 q hq'

/-- A key present among a keyed fold's inputs is found afterwards. -/
theorem foldl_mapSet_get_isSome {α : Type} (f : α → String) (g : α → String)
    (l : List α) :
    ∀ (m0 : List (String × String)) (k : String),
      ((∃ x ∈ l, f x = k) ∨ (mapGet m0 k).isSome) →
      (mapGet (l.foldl (fun m x => mapSet m (f x) (g x)) m0) k).isSome := by
  induction l with
  | nil =>
      intro m0 k h
      rcases h with ⟨x, hx, _⟩ | h
      · exact absurd hx (List.not_mem_nil x)
      · exact h
  | cons x xs ih =>
      intro m0 k h
      simp only [List.foldl_cons]
      refine ih _ k ?_
      rcases h with ⟨y, hy, hyk⟩ | h
      · rcases List.mem_cons.mp hy with hy | hy
        · subst hy
          refine Or.inr ?_
          rw [mapGet_mapSet]
          simp [hyk]
        · exact Or.inl ⟨y, hy, hyk⟩
      · refine Or.inr ?_
        rw [mapGet_mapSet]
        by_cases hk : k = f x <;> simp [hk, h]

/-- `filterMap` by a function that succeeds pointwise is a `map`. -/
theorem filterMap_eq_map_of_some {α β : Type} (f : α → Option β) (g : α → β)
    (l : List α) (h : ∀ x ∈ l, f x = some (g x)) :
    l.filterMap f = l.map g := by
  induction l with
  | nil => simp
  | cons x xs ih =>
      rw [List.filterMap_cons, h x (List.mem_cons_self _ _), List.map_cons,
        ih (fun y hy => h y (List.mem_cons_of_mem _ hy))]

/-- Synthesised node ids are never empty. -/
theorem buildNodeId_not_empty (lid level : String) :
    (buildNodeId lid level).isEmpty = false := by
  unfold buildNodeId
  by_contra hcon
  have h1 : (lid ++ "_" ++ level).isEmpty = true := by
    revert hcon
    cases (lid ++ "_" ++ level).isEmpty <;> simp
  have h2 : (lid ++ "_" ++ level) = "" := by
    simpa [String.isEmpty_iff] using h1
  have h3 := congrArg String.length h2
  have h4 : ("_" : String).length = 1 := rfl
  rw [String.length_append, String.length_append, h4] at h3
  simp at h3

/-- A filter on one value of a key finds nothing among elements kept
for having a different value. -/
theorem filter_ne_then_eq {α : Type} (key : α → String) (C : String)
    (l : List α) :
    (l.filter (fun a => key a ≠ C)).filter (fun a => key a = C) = [] := by
  rw [List.filter_eq_nil_iff]
  intro a ha
  have := (List.mem_filter.mp ha).2
  simp only [decide_eq_true_eq] at this ⊢
  exact this

/-- The entities exported for a level carry the level's nodes' logical
ids and entity types and are re-imported verbatim (nonempty fields
assumed); nodes of the import target at that level are exactly the
re-imports. -/
theorem c9_imported_nodes (env : Env) (now : Int) (st T : Store)
    (level : String)
    (hn : ∀ n ∈ st.nodes.filter
        (fun n => n.classification_level = normalizeLevel level),
      n.logical_id.isEmpty = false) :
    (importLevelData env now T level (exportLevelData st level)).nodes =
      T.nodes.filter
        (fun n => n.classification_level ≠ normalizeLevel level) ++
      (exportLevelData st level).1.map
        (importEntityFn (normalizeLevel level) (jsToISOString now)) := by
  have hEnt : ∀ e ∈ (exportLevelData st level).1,
      ¬e.logical_id.isEmpty := by
    intro e hemem
    obtain ⟨n, hn1, hn2⟩ := List.mem_map.mp hemem
    rw [← hn2]
    simp only []
    rw [hn n hn1]
    simp
  have hfoldE := importEntities_no_draw env (normalizeLevel level)
    (jsToISOString now) (exportLevelData st level).1 hEnt [] [] T.rngIdx
  simp only [importLevelData]
  rw [hfoldE]
  simp

/-- Edges of the import target at the level are exactly the re-imported
relationships (nonempty ids assumed, so no random draws occur). -/
theorem c9_imported_edges (env : Env) (now : Int) (st T : Store)
    (level : String)
    (hn : ∀ n ∈ st.nodes.filter
        (fun n => n.classification_level = normalizeLevel level),
      n.logical_id.isEmpty = false)
    (hre : ∀ r ∈ (exportLevelData st level).2, ¬r.logical_id.isEmpty) :
    (importLevelData env now T level (exportLevelData st level)).edges =
      T.edges.filter
        (fun e => e.classification_level ≠ normalizeLevel level) ++
      (exportLevelData st level).2.filterMap
        (importRelFn (normalizeLevel level) (jsToISOString now)
          ((exportLevelData st level).1.foldl
            (fun m e => mapSet m e.logical_id
              (buildNodeId e.logical_id (normalizeLevel level))) [])) := by
  have hEnt : ∀ e ∈ (exportLevelData st level).1,
      ¬e.logical_id.isEmpty := by
    intro e hemem
    obtain ⟨n, hn1, hn2⟩ := List.mem_map.mp hemem
    rw [← hn2]
    simp only []
    rw [hn n hn1]
    simp
  have hfoldE := importEntities_no_draw env (normalizeLevel level)
    (jsToISOString now) (exportLevelData st level).1 hEnt [] [] T.rngIdx
  have hfoldR := importRels_no_draw env (normalizeLevel level)
    (jsToISOString now)
    ((exportLevelData st level).1.foldl
      (fun m e => mapSet m e.logical_id
        (buildNodeId e.logical_id (normalizeLevel level))) [])
    (exportLevelData st level).2 hre [] T.rngIdx
  simp only [importLevelData]
  rw [hfoldE]
  simp only []
  rw [hfoldR]
  simp

/-- When every edge of the exported level has nonempty ids and both
endpoints among the level's nodes, every exported relationship
re-imports, and the imported edges' relation types are exactly the
level's. -/
theorem c9_rel_types (now : Int) (st : Store) (level : String)
    (hn : ∀ n ∈ st.nodes.filter
        (fun n => n.classification_level = normalizeLevel level),
      n.logical_id.isEmpty = false)
    (he : ∀ e ∈ st.edges.filter
        (fun e => e.classification_level = normalizeLevel level),
      e.relation_type.isEmpty = false ∧
      (∃ n ∈ st.nodes.filter
          (fun n => n.classification_level = normalizeLevel level),
        n.id = e.source_node_id) ∧
      (∃ n ∈ st.nodes.filter
          (fun n => n.classification_level = normalizeLevel level),
        n.id = e.target_node_id)) :
    ((exportLevelData st level).2.filterMap
        (importRelFn (normalizeLevel level) (jsToISOString now)
          ((exportLevelData st level).1.foldl
            (fun m e => mapSet m e.logical_id
              (buildNodeId e.logical_id (normalizeLevel level))) []))).map
      (·.relation_type) =
    (st.edges.filter
        (fun e => e.classification_level = normalizeLevel level)).map
      (·.relation_type) := by
  have hEkeys : (exportLevelData st level).1.map (·.logical_id) =
      (st.nodes.filter
        (fun n => n.classification_level = normalizeLevel level)).map
        (·.logical_id) := by
    show ((st.nodes.filter
      (fun n => n.classification_level = normalizeLevel level)).map
        (fun n => ({ logical_id := n.logical_id
                     entity_type := n.entity_type
                     name := n.name
                     classification := n.classification_level
                     attributes := n.attributes
                     created_at := ""
                     updated_at := "" } : PayloadEntity))).map
        (·.logical_id) = _
    rw [List.map_map]
    rfl
  have hL : ∀ k, mapGet
      ((exportLevelData st level).1.foldl
        (fun m e => mapSet m e.logical_id
          (buildNodeId e.logical_id (normalizeLevel level))) []) k =
      if ((st.nodes.filter
          (fun n => n.classification_level = normalizeLevel level)).map
            (·.logical_id)).contains k then
        some (buildNodeId k (normalizeLevel level))
      else none := by
    intro k
    have h1 : (exportLevelData st level).1.foldl
        (fun m e => mapSet m e.logical_id
          (buildNodeId e.logical_id (normalizeLevel level))) [] =
        ((exportLevelData st level).1.map (·.logical_id)).foldl
          (fun m kk => mapSet m kk (buildNodeId kk (normalizeLevel level)))
          [] := by
      rw [List.foldl_map]
    rw [h1, mapGet_foldl_keyed, hEkeys]
    by_cases hc : ((st.nodes.filter
        (fun n => n.classification_level = normalizeLevel level)).map
          (·.logical_id)).contains k <;> simp [hc, mapGet]
  have hresolve : ∀ key : String,
      (∃ n ∈ st.nodes.filter
          (fun n => n.classification_level = normalizeLevel level),
        n.id = key) →
      ∃ v, mapGet (buildMap ((st.nodes.filter
          (fun n => n.classification_level = normalizeLevel level)).map
            (fun n => (n.id, n.logical_id)))) key = some v ∧
        v.isEmpty = false ∧
        ((st.nodes.filter
            (fun n => n.classification_level = normalizeLevel level)).map
              (·.logical_id)).contains v = true := by
    intro key hex
    obtain ⟨n0, hn0, hn0id⟩ := hex
    have hisSome := foldl_mapSet_get_isSome (fun p => p.1) (fun p => p.2)
      ((st.nodes.filter
        (fun n => n.classification_level = normalizeLevel level)).map
          (fun n => (n.id, n.logical_id))) [] key
      (Or.inl ⟨(n0.id, n0.logical_id),
        List.mem_map_of_mem _ hn0, hn0id⟩)
    obtain ⟨v, hv⟩ := Option.isSome_iff_exists.mp hisSome
    have hpair : (key, v) ∈ (st.nodes.filter
        (fun n => n.classification_level = normalizeLevel level)).map
          (fun n => (n.id, n.logical_id)) := by
      refine foldl_mapSet_pairs (fun p => p.1) (fun p => p.2)
        (fun p => p ∈ (st.nodes.filter
          (fun n => n.classification_level = normalizeLevel level)).map
            (fun n => (n.id, n.logical_id)))
        _ (fun x hx => hx) [] (by simp) (key, v) (mapGet_mem _ _ _ hv)
    obtain ⟨n2, hn2, hn2eq⟩ := List.mem_map.mp hpair
    have hvval : v = n2.logical_id := ((Prod.ext_iff.mp hn2eq).2).symm
    refine ⟨v, hv, ?_, ?_⟩
    · rw [hvval]
      exact hn n2 hn2
    · rw [hvval]
      exact List.elem_eq_true_of_mem (List.mem_map_of_mem _ hn2)
  have hpoint : ∀ r ∈ (exportLevelData st level).2,
      importRelFn (normalizeLevel level) (jsToISOString now)
        ((exportLevelData st level).1.foldl
          (fun m e => mapSet m e.logical_id
            (buildNodeId e.logical_id (normalizeLevel level))) []) r =
      some
        { id := buildNodeId r.logical_id (normalizeLevel level)
          logical_id := r.logical_id
          classification_level := normalizeLevel level
          source_node_id := buildNodeId r.source_id (normalizeLevel level)
          target_node_id := buildNodeId r.target_id (normalizeLevel level)
          relation_type := jsOrStr r.relation_type "RELATED_TO"
          attributes := r.attributes
          created_at := jsOrStr r.created_at (jsToISOString now) } := by
    intro r hr
    obtain ⟨e, hemem, heeq⟩ := List.mem_map.mp hr
    obtain ⟨hrel, hsrc, htgt⟩ := he e hemem
    obtain ⟨vs, hvs, hvsne, hvsmem⟩ := hresolve e.source_node_id hsrc
    obtain ⟨vt, hvt, hvtne, hvtmem⟩ := hresolve e.target_node_id htgt
    have hrsrc : r.source_id = vs := by
      rw [← heeq]
      simp only []
      rw [hvs]
      simp [jsOrStr, hvsne]
    have hrtgt : r.target_id = vt := by
      rw [← heeq]
      simp only []
      rw [hvt]
      simp [jsOrStr, hvtne]
    unfold importRelFn
    rw [hL r.source_id, hL r.target_id, hrsrc, hrtgt, hvsmem, hvtmem]
    simp only [if_true]
    have hcond : ¬((buildNodeId vs (normalizeLevel level)).isEmpty = true ∨
        (buildNodeId vt (normalizeLevel level)).isEmpty = true) := by
      rw [buildNodeId_not_empty, buildNodeId_not_empty]
      simp
    rw [if_neg hcond, ← hrsrc, ← hrtgt]
  rw [filterMap_eq_map_of_some _ _ _ hpoint, List.map_map]
  have hcomp : ((exportLevelData st level).2.map
      (fun r => jsOrStr r.relation_type "RELATED_TO")) =
      (st.edges.filter
        (fun e => e.classification_level = normalizeLevel level)).map
        (fun e => jsOrStr e.relation_type "RELATED_TO") := by
    show ((st.edges.filter
      (fun e => e.classification_level = normalizeLevel level)).map
        (fun e => ({ logical_id := e.logical_id
                     source_id := jsOrStr ((mapGet (buildMap ((st.nodes.filter
                       (fun n => n.classification_level =
                         normalizeLevel level)).map
                         (fun n => (n.id, n.logical_id))))
                       e.source_node_id).getD "") e.source_node_id
                     target_id := jsOrStr ((mapGet (buildMap ((st.nodes.filter
                       (fun n => n.classification_level =
                         normalizeLevel level)).map
                         (fun n => (n.id, n.logical_id))))
                       e.target_node_id).getD "") e.target_node_id
                     relation_type := e.relation_type
                     classification := e.classification_level
                     attributes := e.attributes
                     created_at := "" } : PayloadRel))).map
        (fun r => jsOrStr r.relation_type "RELATED_TO") = _
    rw [List.map_map]
    rfl
  show ((exportLevelData st level).2.map
      (fun r => jsOrStr r.relation_type "RELATED_TO")) = _
  rw [hcomp]
  apply List.map_congr_left
  intro e hemem
  simp [jsOrStr, (he e hemem).1]

/-- A re-imported edge lives at the imported level. -/
theorem importRelFn_classification (classification nowIso : String)
    (logicalToId : List (String × String)) (r : PayloadRel) (a : GraphEdge)
    (h : importRelFn classification nowIso logicalToId r = some a) :
    a.classification_level = classification := by
  unfold importRelFn at h
  split at h
  · split at h
    · exact absurd h (by simp)
    · rw [← Option.some_inj.mp h]
  · exact absurd h (by simp)

/-- The exported level's node logical ids, unchanged by export. -/
theorem c9_export_lids (st : Store) (level : String) :
    (exportLevelData st level).1.map (·.logical_id) =
      (st.nodes.filter
        (fun n => n.classification_level = normalizeLevel level)).map
        (·.logical_id) := by
  show ((st.nodes.filter
    (fun n => n.classification_level = normalizeLevel level)).map
      (fun n => ({ logical_id := n.logical_id
                   entity_type := n.entity_type
                   name := n.name
                   classification := n.classification_level
                   attributes := n.attributes
                   created_at := ""
                   updated_at := "" } : PayloadEntity))).map
      (·.logical_id) = _
  rw [List.map_map]
  rfl

/-- The exported level's node entity types, unchanged by export. -/
theorem c9_export_etypes (st : Store) (level : String) :
    (exportLevelData st level).1.map (·.entity_type) =
      (st.nodes.filter
        (fun n => n.classification_level = normalizeLevel level)).map
        (·.entity_type) := by
  show ((st.nodes.filter
    (fun n => n.classification_level = normalizeLevel level)).map
      (fun n => ({ logical_id := n.logical_id
                   entity_type := n.entity_type
                   name := n.name
                   classification := n.classification_level
                   attributes := n.attributes
                   created_at := ""
                   updated_at := "" } : PayloadEntity))).map
      (·.entity_type) = _
  rw [List.map_map]
  rfl

/-- Claim C9, amended: exporting a classification level and importing
the payload into a store empty at that level reproduces the level's
set of node logical ids, multiset of entity types, and multiset of
relation types — provided the level is well-formed: nonempty logical
ids, entity types and relation types, and every edge of the level has
both endpoints among the level's nodes.  (The repository's seed data
violates the endpoint condition, see the counterexample.) -/
theorem c9_roundtrip_amended (env : Env) (now : Int) (st T : Store)
    (level C : String) (hC : C = normalizeLevel level)
    (hn : ∀ n ∈ st.nodes.filter (fun n => n.classification_level = C),
      n.logical_id.isEmpty = false ∧ n.entity_type.isEmpty = false)
    (he : ∀ e ∈ st.edges.filter (fun e => e.classification_level = C),
      e.logical_id.isEmpty = false ∧ e.relation_type.isEmpty = false ∧
      (∃ n ∈ st.nodes.filter (fun n => n.classification_level = C),
        n.id = e.source_node_id) ∧
      (∃ n ∈ st.nodes.filter (fun n => n.classification_level = C),
        n.id = e.target_node_id))
    (hT : T.nodes.filter (fun n => n.classification_level = C) = [] ∧
      T.edges.filter (fun e => e.classification_level = C) = []) :
    (((importLevelData env now T level
          (exportLevelData st level)).nodes.filter
        (fun n => n.classification_level = C)).map
      (·.logical_id)).toFinset =
      ((st.nodes.filter (fun n => n.classification_level = C)).map
        (·.logical_id)).toFinset ∧
    (((importLevelData env now T level
          (exportLevelData st level)).nodes.filter
        (fun n => n.classification_level = C)).map
      (·.entity_type) : Multiset String) =
      ((st.nodes.filter (fun n => n.classification_level = C)).map
        (·.entity_type) : Multiset String) ∧
    (((importLevelData env now T level
          (exportLevelData st level)).edges.filter
        (fun e => e.classification_level = C)).map
      (·.relation_type) : Multiset String) =
      ((st.edges.filter (fun e => e.classification_level = C)).map
        (·.relation_type) : Multiset String) := by
  subst hC
  have hn' : ∀ n ∈ st.nodes.filter
      (fun n => n.classification_level = normalizeLevel level),
      n.logical_id.isEmpty = false := fun n h => (hn n h).1
  have hre : ∀ r ∈ (exportLevelData st level).2, ¬r.logical_id.isEmpty := by
    intro r hr
    obtain ⟨e, he1, he2⟩ := List.mem_map.mp hr
    rw [← he2]
    simp only []
    rw [(he e he1).1]
    simp
  have hnodes := c9_imported_nodes env now st T level hn'
  have hedges := c9_imported_edges env now st T level hn' hre
  have hTn : (importLevelData env now T level
      (exportLevelData st level)).nodes.filter
        (fun n => n.classification_level = normalizeLevel level) =
      (exportLevelData st level).1.map
        (importEntityFn (normalizeLevel level) (jsToISOString now)) := by
    rw [hnodes, List.filter_append,
      filter_ne_then_eq (fun n => n.classification_level)
        (normalizeLevel level) T.nodes, List.nil_append]
    apply List.filter_eq_self.mpr
    intro a ha
    obtain ⟨e, _, hea⟩ := List.mem_map.mp ha
    rw [← hea]
    simp [importEntityFn]
  have hTe : (importLevelData env now T level
      (exportLevelData st level)).edges.filter
        (fun e => e.classification_level = normalizeLevel level) =
      (exportLevelData st level).2.filterMap
        (importRelFn (normalizeLevel level) (jsToISOString now)
          ((exportLevelData st level).1.foldl
            (fun m e => mapSet m e.logical_id
              (buildNodeId e.logical_id (normalizeLevel level))) [])) := by
    rw [hedges, List.filter_append,
      filter_ne_then_eq (fun e => e.classification_level)
        (normalizeLevel level) T.edges, List.nil_append]
    apply List.filter_eq_self.mpr
    intro a ha
    obtain ⟨r, _, hra⟩ := List.mem_filterMap.mp ha
    rw [importRelFn_classification _ _ _ _ _ hra]
    simp
  refine ⟨?_, ?_, ?_⟩
  · rw [hTn]
    have h1 : ((exportLevelData st level).1.map
        (importEntityFn (normalizeLevel level) (jsToISOString now))).map
          (·.logical_id) = (exportLevelData st level).1.map (·.logical_id) := by
      rw [List.map_map]
      rfl
    rw [h1, c9_export_lids]
  · rw [hTn]
    have h1 : ((exportLevelData st level).1.map
        (importEntityFn (normalizeLevel level) (jsToISOString now))).map
          (·.entity_type) = (exportLevelData st level).1.map
            (fun e => jsOrStr e.entity_type "Unknown") := by
      rw [List.map_map]
      rfl
    have h2 : (exportLevelData st level).1.map
        (fun e => jsOrStr e.entity_type "Unknown") =
        (exportLevelData st level).1.map (·.entity_type) := by
      apply List.map_congr_left
      intro e hemem
      obtain ⟨n, hn1, hn2⟩ := List.mem_map.mp hemem
      have hne : e.entity_type.isEmpty = false := by
        rw [← hn2]
        exact (hn n hn1).2
      simp [jsOrStr, hne]
    rw [h1, h2, c9_export_etypes]
  · rw [hTe]
    have h3 := c9_rel_types now st level hn'
      (fun e heM => ⟨(he e heM).2.1, (he e heM).2.2.1, (he e heM).2.2.2⟩)
    rw [h3]

/-- Counterexample to claim C9 as stated: the source store holds a
SECRET edge whose target is a CONFIDENTIAL node (exactly the shape of
the repository's seed data, e.g. `rel_command_1_SECRET`).  Exporting
SECRET and importing into an empty store silently drops the
relationship, so the multiset of relation types is not reproduced. -/
theorem c9_counterexample :
    ((importLevelData trivEnv 0 emptyStore "SECRET"
        (exportLevelData c9SrcStore "SECRET")).edges.filter
      (fun e => e.classification_level = "SECRET")).map (·.relation_type) =
      [] ∧
    (c9SrcStore.edges.filter
      (fun e => e.classification_level = "SECRET")).map (·.relation_type) =
      ["COMMANDS"] ∧
    ¬((((importLevelData trivEnv 0 emptyStore "SECRET"
          (exportLevelData c9SrcStore "SECRET")).edges.filter
        (fun e => e.classification_level = "SECRET")).map
          (·.relation_type) : Multiset String) =
      ((c9SrcStore.edges.filter
        (fun e => e.classification_level = "SECRET")).map
          (·.relation_type) : Multiset String)) := by
  have h1 : ((importLevelData trivEnv 0 emptyStore "SECRET"
      (exportLevelData c9SrcStore "SECRET")).edges.filter
        (fun e => e.classification_level = "SECRET")).map (·.relation_type) =
      [] := by decide
  have h2 : (c9SrcStore.edges.filter
      (fun e => e.classification_level = "SECRET")).map (·.relation_type) =
      ["COMMANDS"] := by decide
  refine ⟨h1, h2, ?_⟩
  rw [h1, h2]
  simp

/-- Witness for the amended claim C9 at a well-formed concrete level:
a CONFIDENTIAL node with a same-level self-loop round-trips. -/
theorem c9_roundtrip_amended_witness :
    ("CONFIDENTIAL" : String) = normalizeLevel "CONFIDENTIAL" ∧
    (((importLevelData trivEnv 0 emptyStore "CONFIDENTIAL"
        (exportLevelData c9GoodStore "CONFIDENTIAL")).nodes.filter
      (fun n => n.classification_level = "CONFIDENTIAL")).map
        (·.logical_id)).toFinset =
      ((c9GoodStore.nodes.filter
        (fun n => n.classification_level = "CONFIDENTIAL")).map
          (·.logical_id)).toFinset ∧
    (((importLevelData trivEnv 0 emptyStore "CONFIDENTIAL"
        (exportLevelData c9GoodStore "CONFIDENTIAL")).edges.filter
      (fun e => e.classification_level = "CONFIDENTIAL")).map
        (·.relation_type) : Multiset String) =
      ((c9GoodStore.edges.filter
        (fun e => e.classification_level = "CONFIDENTIAL")).map
          (·.relation_type) : Multiset String) := by
  have h := c9_roundtrip_amended trivEnv 0 c9GoodStore emptyStore
    "CONFIDENTIAL" "CONFIDENTIAL" (by decide) (by decide) (by decide)
    (by decide)
  exact ⟨by decide, h.1, h.2.2⟩
